import Mathlib

/-!
Shallow embedding of the LogisticsGame simulation core (src/main.py) and
verification of its specification claims.

Conventions of the embedding:
* Python `float` quantities (storage, cargo, timers, dt) are modelled as `ℚ`;
  pixel positions, which flow through a Euclidean square root, are modelled
  as `ℝ` and are never inspected by the logistics logic.
* Python dicts are modelled as association lists with first-match lookup and
  in-place update; `dict.get(k, default)` becomes a total lookup with default.
* Grid cells (`Coord = Tuple[int, int]`) become `ℤ × ℤ`.
* The `while` loop of the BFS is modelled with explicit fuel; the fuel is
  proved sufficient, so the embedded function computes the loop's true result.
-/

namespace LogisticsGame

/-- A grid cell, `Coord = Tuple[int, int]` in the source. -/
abbrev Coord : Type := ℤ × ℤ

/-- `neighbors4`: the four axis-aligned neighbours, in source order. -/
def neighbors4 (c : Coord) : List Coord :=
  [(c.1 + 1, c.2), (c.1 - 1, c.2), (c.1, c.2 + 1), (c.1, c.2 - 1)]

/-- The `road_grid` dict (`Dict[Coord, int]`), as an association list. -/
abbrev RoadGrid : Type := List (Coord × ℕ)

/-- `self.road_grid.get(cell, 0)`. -/
def gridGet (g : RoadGrid) (c : Coord) : ℕ :=
  match g.find? (fun p => p.1 == c) with
  | some p => p.2
  | none => 0

/-- `self.road_grid[cell] = v` (dict update: replace the key or add it). -/
def gridSet (g : RoadGrid) (c : Coord) (v : ℕ) : RoadGrid :=
  if g.any (fun p => p.1 == c) then
    g.map (fun p => if p.1 == c then (c, v) else p)
  else g ++ [(c, v)]

/-- `is_driveable`: road value 1 in the grid. -/
def is_driveable (g : RoadGrid) (c : Coord) : Bool :=
  gridGet g c == 1

/-- One diamond ring of the `find_nearest_road_to_cell` scan, distance `d`,
in exact source order (`dx` from `-d` to `d`, then `sy` in `(-1, 1)`). -/
def ringCells (c : Coord) (d : ℕ) : List Coord :=
  (List.range (2 * d + 1)).flatMap (fun i =>
    let dx : ℤ := (i : ℤ) - (d : ℤ)
    let dy : ℤ := (d : ℤ) - |dx|
    [(c.1 + dx, c.2 - dy), (c.1 + dx, c.2 + dy)])

/-- `find_nearest_road_to_cell` with an explicit `max_dist`. -/
def findNearestRoadRadius (g : RoadGrid) (cell : Coord) (max_dist : ℕ) :
    Option Coord :=
  if is_driveable g cell then some cell
  else ((List.range max_dist).flatMap (fun j => ringCells cell (j + 1))).find?
    (fun cand => is_driveable g cand)

/-- `find_nearest_road_to_cell(cell)` with the default `max_dist = 12`
(every call site in the source uses the default). -/
def find_nearest_road_to_cell (g : RoadGrid) (cell : Coord) : Option Coord :=
  findNearestRoadRadius g cell 12

/-- The BFS parent dict `came : Dict[Coord, Optional[Coord]]`, insertion
ordered, as an association list. -/
abbrev Came : Type := List (Coord × Option Coord)

/-- `nb in came`. -/
def cameHas (m : Came) (c : Coord) : Bool :=
  m.any (fun p => p.1 == c)

/-- `came[c]`, as an `Option` (missing key = `none`). -/
def cameGet (m : Came) (c : Coord) : Option (Option Coord) :=
  match m.find? (fun p => p.1 == c) with
  | some p => some p.2
  | none => none

/-- The inner `for nb in neighbors4(cur)` loop of the BFS: enqueue fresh
driveable neighbours and record their parent. -/
def bfsScan (g : RoadGrid) (cur : Coord) :
    List Coord → List Coord × Came → List Coord × Came
  | [], acc => acc
  | nb :: nbs, (q, m) =>
    if is_driveable g nb && !cameHas m nb then
      bfsScan g cur nbs (q ++ [nb], m ++ [(nb, some cur)])
    else
      bfsScan g cur nbs (q, m)

/-- The BFS `while queue` loop, with fuel (proved sufficient below):
pop from the front, stop when the goal is popped, otherwise scan the
4-neighbourhood. -/
def bfsAux (g : RoadGrid) (goal : Coord) : ℕ → List Coord → Came → Came
  | 0, _, m => m
  | _ + 1, [], m => m
  | fuel + 1, cur :: rest, m =>
    if cur == goal then m
    else
      let qm := bfsScan g cur (neighbors4 cur) (rest, m)
      bfsAux g goal fuel qm.1 qm.2

/-- The distinct driveable cells recorded in the grid. -/
def driveableCells (g : RoadGrid) : Finset Coord :=
  (g.map Prod.fst).toFinset.filter (fun c => is_driveable g c)

/-- Fuel for the BFS loop: enough for every enqueue and dequeue. -/
def bfsFuel (g : RoadGrid) : ℕ :=
  2 * (driveableCells g).card + 2

/-- The path reconstruction loop
(`while cur is not None: path.append(cur); cur = came[cur]`), with fuel;
a missing key (a `KeyError` in Python) also stops. -/
def rebuildAux (m : Came) : ℕ → Coord → List Coord → List Coord
  | 0, _, path => path
  | fuel + 1, cur, path =>
    match cameGet m cur with
    | some (some p) => rebuildAux m fuel p (path ++ [cur])
    | some none => path ++ [cur]
    | none => path ++ [cur]

/-- `find_path_on_roads(start, goal)`: single-cell path when `start == goal`,
otherwise BFS over driveable cells, empty list when the goal was not reached,
else the reversed parent chain. -/
def find_path_on_roads (g : RoadGrid) (start goal : Coord) : List Coord :=
  if start == goal then [start]
  else
    let m := bfsAux g goal (bfsFuel g) [start] [(start, none)]
    if !cameHas m goal then []
    else (rebuildAux m m.length goal []).reverse

/-- `is_cell_connected_to_base_by_roads`. -/
def is_cell_connected_to_base_by_roads (g : RoadGrid) (base cell : Coord) :
    Bool :=
  match find_nearest_road_to_cell g cell, find_nearest_road_to_cell g base with
  | some s, some t => decide (0 < (find_path_on_roads g s t).length)
  | _, _ => false

/-! ### Reachability (specification side)

`ReachN g start n v` means: there is a chain of `n` hops from `start` to `v`
along 4-neighbourhoods in which every cell after `start` is driveable —
exactly the cells the source BFS can traverse. -/

/-- `n`-hop reachability through driveable cells. -/
def ReachN (g : RoadGrid) (start : Coord) : ℕ → Coord → Prop
  | 0, v => v = start
  | n + 1, v => is_driveable g v = true ∧ ∃ u, ReachN g start n u ∧ v ∈ neighbors4 u

/-- Reachability through driveable cells. -/
def Reachable (g : RoadGrid) (start goal : Coord) : Prop :=
  ∃ n, ReachN g start n goal

/-- `n` is the exact BFS distance of `v` from `start`. -/
def isMinReach (g : RoadGrid) (start : Coord) (n : ℕ) (v : Coord) : Prop :=
  ReachN g start n v ∧ ∀ m, ReachN g start m v → n ≤ m

/-! ### World model -/

/-- A `Dict[str, float]` (facility storage, resource pool), as an
association list. -/
abbrev Storage : Type := List (String × ℚ)

/-- `d.get(k, 0.0)`. -/
def sget (s : Storage) (k : String) : ℚ :=
  match s.find? (fun p => p.1 == k) with
  | some p => p.2
  | none => 0

/-- `d[k] = v` (replace the key or add it). -/
def sset (s : Storage) (k : String) (v : ℚ) : Storage :=
  if s.any (fun p => p.1 == k) then
    s.map (fun p => if p.1 == k then (k, v) else p)
  else s ++ [(k, v)]

/-- `Building` dataclass; `conversion_timer` is attached dynamically in the
source, hence optional here. -/
structure Building where
  type : String
  cell : Coord
  radius_cells : ℕ
  production_rate_per_sec : ℚ
  storage : Storage
  conversion_timer : Option ℚ
deriving DecidableEq

/-- `Truck` dataclass plus its dynamically attached attributes
(`_dest_cell`, `refinery_loop`, `stone_delivered`, `waiting_timer`,
`waiting_target`). Rendering-only fields (colors, direction) are omitted. -/
structure Truck where
  truck_id : ℕ
  position_px : ℝ × ℝ
  current_cell : Coord
  path_cells : List Coord
  speed_px_per_sec : ℚ
  state : String
  cargo_type : Option String
  cargo_amount : ℚ
  cargo_capacity : ℚ
  repeat_enabled : Bool
  saved_source : Option Coord
  saved_dest : Option Coord
  saved_resource : Option String
  dest_cell : Option Coord
  refinery_loop : Bool
  stone_delivered : Option ℚ
  waiting_timer : Option ℚ
  waiting_target : Option ℚ

/-- The world state owned by `Game`, without the truck list (no truck logic
ever reads `self.trucks`, so trucks are threaded separately). -/
structure Game where
  base_cell : Coord
  roads : Finset Coord
  road_grid : RoadGrid
  trees : Finset Coord
  stones : Finset Coord
  resources : Storage
  buildings : List Building
deriving DecidableEq

/-- The full mutable state: world, trucks, and the truck-factory counter. -/
structure World where
  core : Game
  trucks : List Truck
  next_truck_id : ℕ
  trucks_built : ℕ

/-- `get_building_at_cell`: first building whose cell matches. -/
def get_building_at_cell (w : Game) (cell : Coord) : Option Building :=
  w.buildings.find? (fun b => b.cell == cell)

/-- `is_cell_in_base_area`: the 2×2 base footprint. -/
def is_cell_in_base_area (w : Game) (cell : Coord) : Bool :=
  decide (w.base_cell.1 ≤ cell.1 ∧ cell.1 ≤ w.base_cell.1 + 1 ∧
    w.base_cell.2 ≤ cell.2 ∧ cell.2 ≤ w.base_cell.2 + 1)

/-- `is_cell_adjacent_to_base`: the 4×4 area around the 2×2 base. -/
def is_cell_adjacent_to_base (w : Game) (cell : Coord) : Bool :=
  decide (w.base_cell.1 - 1 ≤ cell.1 ∧ cell.1 ≤ w.base_cell.1 + 2 ∧
    w.base_cell.2 - 1 ≤ cell.2 ∧ cell.2 ≤ w.base_cell.2 + 2)

/-- `paint_cell`: place a road unless the cell is occupied by a tree, stone
or road, or no bmats are left. -/
def paint_cell (w : Game) (cell : Coord) : Game :=
  if cell ∈ w.trees ∨ cell ∈ w.stones ∨ cell ∈ w.roads then w
  else if sget w.resources "bmats" ≤ 0 then w
  else
    { w with
      roads := insert cell w.roads,
      road_grid := gridSet w.road_grid cell 1,
      resources := sset w.resources "bmats" (sget w.resources "bmats" - 1) }

/-- `count_trees_in_radius` (squared-Euclidean comparison). -/
def count_trees_in_radius (w : Game) (center : Coord) (radius : ℕ) : ℕ :=
  (w.trees.filter (fun t =>
    (t.1 - center.1) * (t.1 - center.1) + (t.2 - center.2) * (t.2 - center.2)
      ≤ (radius : ℤ) * (radius : ℤ))).card

/-- `count_stones_in_radius`. -/
def count_stones_in_radius (w : Game) (center : Coord) (radius : ℕ) : ℕ :=
  (w.stones.filter (fun s =>
    (s.1 - center.1) * (s.1 - center.1) + (s.2 - center.2) * (s.2 - center.2)
      ≤ (radius : ℤ) * (radius : ℤ))).card

/-- `can_place_lumber`. -/
def can_place_lumber (w : Game) (cell : Coord) : Bool :=
  if cell ∈ w.trees ∨ cell ∈ w.stones then false
  else if cell ∈ w.roads then false
  else if w.buildings.any (fun b => b.cell == cell) then false
  else if is_cell_adjacent_to_base w cell then false
  else true

/-- `place_lumber_camp`. -/
def place_lumber_camp (w : Game) (cell : Coord) : Game :=
  if can_place_lumber w cell then
    let tree_count := count_trees_in_radius w cell 5
    { w with
      buildings := w.buildings ++
        [⟨"lumber", cell, 5, (tree_count : ℚ) * 0.2, [("wood", 0)], none⟩],
      road_grid := gridSet w.road_grid cell 1 }
  else w

/-- `can_place_quarry`. -/
def can_place_quarry (w : Game) (cell : Coord) : Bool :=
  if cell ∈ w.trees ∨ cell ∈ w.stones then false
  else if cell ∈ w.roads then false
  else if w.buildings.any (fun b => b.cell == cell) then false
  else if is_cell_adjacent_to_base w cell then false
  else true

/-- `place_quarry`. -/
def place_quarry (w : Game) (cell : Coord) : Game :=
  if can_place_quarry w cell then
    let stone_count := count_stones_in_radius w cell 5
    { w with
      buildings := w.buildings ++
        [⟨"quarry", cell, 5, (stone_count : ℚ) * 0.2, [("stone", 0)], none⟩],
      road_grid := gridSet w.road_grid cell 1 }
  else w

/-- `can_place_refinery`. -/
def can_place_refinery (w : Game) (cell : Coord) : Bool :=
  if cell ∈ w.trees ∨ cell ∈ w.stones then false
  else if cell ∈ w.roads then false
  else if w.buildings.any (fun b => b.cell == cell) then false
  else if is_cell_adjacent_to_base w cell then false
  else true

/-- `place_refinery`. -/
def place_refinery (w : Game) (cell : Coord) : Game :=
  if can_place_refinery w cell then
    { w with
      buildings := w.buildings ++
        [⟨"refinery", cell, 0, 0.2, [("stone", 0), ("bmats", 0)], none⟩],
      road_grid := gridSet w.road_grid cell 1 }
  else w

/-- `del self.buildings[i]` of the first building at `cell`. -/
def eraseFirstBuilding : List Building → Coord → List Building
  | [], _ => []
  | b :: bs, cell => if b.cell == cell then bs else b :: eraseFirstBuilding bs cell

/-- One cell of `execute_bulldoze`: roads refund a bmat and are marked not
driveable; otherwise the first building at the cell is removed (clearing its
grid entry if present). -/
def bulldozeCell (w : Game) (cell : Coord) : Game :=
  if cell ∈ w.roads then
    { w with
      roads := w.roads.erase cell,
      road_grid := gridSet w.road_grid cell 0,
      resources := sset w.resources "bmats" (sget w.resources "bmats" + 1) }
  else
    match w.buildings.find? (fun b => b.cell == cell) with
    | some b =>
      let g2 := if w.road_grid.any (fun p => p.1 == b.cell) then
          gridSet w.road_grid b.cell 0
        else w.road_grid
      { w with road_grid := g2, buildings := eraseFirstBuilding w.buildings cell }
    | none => w

/-- `execute_bulldoze` over the highlighted cells. -/
def execute_bulldoze (w : Game) (cells : List Coord) : Game :=
  cells.foldl bulldozeCell w

/-- `TruckFactory.get_truck_cost`: `10 + 15 * trucks_built`. -/
def get_truck_cost (trucks_built : ℕ) : ℕ :=
  10 + 15 * trucks_built

/-- `spawn_truck_at_base` (GRID_SIZE = 32, speed 1.2 tiles/sec,
capacity 20). -/
def spawn_truck_at_base (w : World) : World :=
  let b := w.core.base_cell
  let truck : Truck :=
    { truck_id := w.next_truck_id,
      position_px := (((b.1 * 32 + 16 : ℤ) : ℝ), ((b.2 * 32 + 16 : ℤ) : ℝ)),
      current_cell := b,
      path_cells := [],
      speed_px_per_sec := 32 * 1.2,
      state := "idle",
      cargo_type := none,
      cargo_amount := 0,
      cargo_capacity := 20,
      repeat_enabled := false,
      saved_source := none,
      saved_dest := none,
      saved_resource := none,
      dest_cell := none,
      refinery_loop := false,
      stone_delivered := none,
      waiting_timer := none,
      waiting_target := none }
  { w with trucks := w.trucks ++ [truck], next_truck_id := w.next_truck_id + 1 }

/-- `build_new_truck`: pay the factory cost from bmats if affordable. -/
def build_new_truck (w : World) : World :=
  let cost := get_truck_cost w.trucks_built
  if (cost : ℚ) ≤ sget w.core.resources "bmats" then
    let w2 := { w with core := { w.core with
      resources := sset w.core.resources "bmats" (sget w.core.resources "bmats" - (cost : ℚ)) } }
    let w3 := spawn_truck_at_base w2
    { w3 with trucks_built := w3.trucks_built + 1 }
  else w

/-- Python `int()` on a float: truncation toward zero. -/
def pyInt (q : ℚ) : ℤ :=
  if q < 0 then -(Int.floor (-q)) else Int.floor q

/-! ### Production engine (`update`, building loop) -/

/-- Per-building production step of `update(dt)`: gated on a positive rate
and road connectivity to the base; lumber accrues wood, quarries stone, the
refinery converts at most one stone per check once its timer reaches 5 s. -/
def stepBuilding (w : Game) (dt : ℚ) (b : Building) : Building :=
  if b.production_rate_per_sec ≤ 0 then b
  else if is_cell_connected_to_base_by_roads w.road_grid w.base_cell b.cell = false then b
  else if b.type == "lumber" then
    { b with storage := sset b.storage "wood" (sget b.storage "wood" + b.production_rate_per_sec * dt) }
  else if b.type == "quarry" then
    { b with storage := sset b.storage "stone" (sget b.storage "stone" + b.production_rate_per_sec * dt) }
  else if b.type == "refinery" then
    let stone_available := sget b.storage "stone"
    if 0 < stone_available then
      let timer := b.conversion_timer.getD 0 + dt
      if 5 ≤ timer then
        let s1 := sset b.storage "stone" (stone_available - 1)
        { b with storage := sset s1 "bmats" (sget s1 "bmats" + 1),
                 conversion_timer := some 0 }
      else { b with conversion_timer := some timer }
    else b
  else b

/-- The building loop of `update(dt)` (connectivity depends only on the road
grid, which the loop never touches, so a map is faithful). -/
def updateProduction (w : Game) (dt : ℚ) : Game :=
  { w with buildings := w.buildings.map (stepBuilding w dt) }

/-! ### Truck state machine (`on_truck_arrival`, `update_truck`) -/

/-- Update the first building at `cell` in place (Python mutates the object
returned by `get_building_at_cell`, which is the first match). -/
def modifyBuildingAt : List Building → Coord → (Building → Building) → List Building
  | [], _, _ => []
  | b :: bs, cell, f =>
    if b.cell == cell then f b :: bs else b :: modifyBuildingAt bs cell f

/-- Lines 1694–1721 of `on_truck_arrival`: after loading, compute the leg to
the destination; on any failure fall through with the truck unchanged. -/
def routeToDest (w : Game) (t : Truck) : Game × Truck :=
  match t.dest_cell with
  | none => (w, t)
  | some dest =>
    if dest == w.base_cell then
      let cur_road := (find_nearest_road_to_cell w.road_grid t.current_cell).getD t.current_cell
      match find_nearest_road_to_cell w.road_grid dest with
      | some base_road =>
        let path2 := find_path_on_roads w.road_grid cur_road base_road
        if !path2.isEmpty then
          (w, { t with path_cells := path2 ++ [dest], state := "to_dest" })
        else (w, t)
      | none => (w, t)
    else
      let cur_road := (find_nearest_road_to_cell w.road_grid t.current_cell).getD t.current_cell
      match find_nearest_road_to_cell w.road_grid dest with
      | some dest_road =>
        let path2 := find_path_on_roads w.road_grid cur_road dest_road
        if !path2.isEmpty then
          (w, { t with path_cells := path2 ++ [dest], state := "to_dest" })
        else (w, t)
      | none => (w, t)

/-- Lines 1593–1721: the loading dispatch at a `to_source` arrival, followed
by routing to the destination. -/
def loadAndRoute (w : Game) (t : Truck) (src_cell : Coord) (src_building : Building) :
    Game × Truck :=
  if t.cargo_type == some "wood" then
    if src_cell == w.base_cell then
      let amount_available := sget w.resources "wood"
      let load_amount := min 5 (min amount_available (t.cargo_capacity - t.cargo_amount))
      if 0 < load_amount then
        let t1 := { t with cargo_amount := t.cargo_amount + load_amount }
        let w1 := { w with resources := sset w.resources "wood" (max 0 (amount_available - load_amount)) }
        routeToDest w1 t1
      else routeToDest w t
    else
      let b := src_building
      let amount_available := if b.type == "lumber" then sget b.storage "wood" else 0
      let load_amount := min 5 (min amount_available (t.cargo_capacity - t.cargo_amount))
      if 0 < load_amount then
        let t1 := { t with cargo_amount := t.cargo_amount + load_amount }
        let w1 :=
          if b.type == "lumber" then
            { w with buildings := modifyBuildingAt w.buildings src_cell (fun bb =>
                { bb with storage := sset bb.storage "wood" (max 0 (sget bb.storage "wood" - load_amount)) }) }
          else w
        routeToDest w1 t1
      else routeToDest w t
  else if t.cargo_type == some "stone" then
    if src_cell == w.base_cell then
      let amount_available := sget w.resources "stone"
      let target_load : ℚ := 5
      let load_amount := min target_load (min amount_available (t.cargo_capacity - t.cargo_amount))
      if 0 < load_amount then
        let t1 := { t with cargo_amount := t.cargo_amount + load_amount }
        let w1 := { w with resources := sset w.resources "stone" (max 0 (amount_available - load_amount)) }
        let t2 :=
          match t1.dest_cell with
          | some dest =>
            match get_building_at_cell w1 dest with
            | some db =>
              if db.type == "refinery" then
                { t1 with refinery_loop := true, stone_delivered := some load_amount }
              else t1
            | none => t1
          | none => t1
        routeToDest w1 t2
      else routeToDest w t
    else
      let b := src_building
      let amount_available := if b.type == "quarry" then sget b.storage "stone" else 0
      let load_amount := min 5 (min amount_available (t.cargo_capacity - t.cargo_amount))
      if 0 < load_amount then
        let t1 := { t with cargo_amount := t.cargo_amount + load_amount }
        let w1 :=
          if b.type == "quarry" then
            { w with buildings := modifyBuildingAt w.buildings src_cell (fun bb =>
                { bb with storage := sset bb.storage "stone" (max 0 (sget bb.storage "stone" - load_amount)) }) }
          else w
        if t1.refinery_loop then
          match t1.dest_cell with
          | some dest =>
            let cur_road := (find_nearest_road_to_cell w1.road_grid t1.current_cell).getD t1.current_cell
            match find_nearest_road_to_cell w1.road_grid dest with
            | some dest_road =>
              let path2 := find_path_on_roads w1.road_grid cur_road dest_road
              if !path2.isEmpty then
                (w1, { t1 with path_cells := path2 ++ [dest], state := "to_dest" })
              else routeToDest w1 t1
            | none => routeToDest w1 t1
          | none => routeToDest w1 t1
        else routeToDest w1 t1
      else routeToDest w t
  else if t.cargo_type == some "bmats" then
    if src_cell == w.base_cell then
      let amount_available := sget w.resources "bmats"
      let load_amount := min 5 (min amount_available (t.cargo_capacity - t.cargo_amount))
      if 0 < load_amount then
        let t1 := { t with cargo_amount := t.cargo_amount + load_amount }
        let w1 := { w with resources := sset w.resources "bmats" (max 0 (amount_available - load_amount)) }
        routeToDest w1 t1
      else routeToDest w t
    else
      let b := src_building
      let amount_available := if b.type == "refinery" then sget b.storage "bmats" else 0
      let load_amount := min 5 (min amount_available (t.cargo_capacity - t.cargo_amount))
      if 0 < load_amount then
        let t1 := { t with cargo_amount := t.cargo_amount + load_amount }
        let w1 :=
          if b.type == "refinery" then
            { w with buildings := modifyBuildingAt w.buildings src_cell (fun bb =>
                { bb with storage := sset bb.storage "bmats" (max 0 (sget bb.storage "bmats" - load_amount)) }) }
          else w
        routeToDest w1 t1
      else routeToDest w t
  else
    let t1 :=
      if src_building.type == "lumber" then { t with cargo_type := some "wood" }
      else if src_building.type == "quarry" then { t with cargo_type := some "stone" }
      else if src_building.type == "refinery" then { t with cargo_type := some "bmats" }
      else t
    routeToDest w t1

/-- Lines 1726–1759: the `waiting_for_bmats` branch. The source statement
`t.waiting_timer += dt` reads a name `dt` that is unbound inside
`on_truck_arrival` (a `NameError` if ever executed); the branch is dead code
(see the C1 theorems), so that write has no well-defined value and is not
modelled. -/
def waitingStep (w : Game) (t : Truck) : Game × Truck :=
  match t.dest_cell with
  | none => (w, t)
  | some dest_cell =>
    match get_building_at_cell w dest_cell with
    | some dest_building =>
      if dest_building.type == "refinery" then
        let bmat_available := sget dest_building.storage "bmats"
        let waiting_target := t.waiting_target.getD 5
        if waiting_target ≤ bmat_available then
          let t1 := { t with cargo_type := some "bmats", cargo_amount := waiting_target }
          let w1 := { w with buildings := modifyBuildingAt w.buildings dest_cell (fun bb =>
              { bb with storage := sset bb.storage "bmats" (bmat_available - waiting_target) }) }
          let cur_road := (find_nearest_road_to_cell w1.road_grid t1.current_cell).getD t1.current_cell
          match find_nearest_road_to_cell w1.road_grid w1.base_cell with
          | some base_road =>
            let path_to_base := find_path_on_roads w1.road_grid cur_road base_road
            if !path_to_base.isEmpty then
              (w1, { t1 with path_cells := path_to_base ++ [w1.base_cell], state := "to_dest", dest_cell := some w1.base_cell })
            else (w1, { t1 with state := "idle" })
          | none => (w1, { t1 with state := "idle" })
        else (w, t)
      else (w, t)
    | none => (w, t)

/-- Lines 1820–1842: repeat the saved trip if enabled and the saved
parameters are truthy and a path exists, otherwise go idle and clear the
cargo type and destination. -/
def repeatOrIdle (w : Game) (t : Truck) : Game × Truck :=
  if t.repeat_enabled && t.saved_source.isSome && t.saved_dest.isSome &&
      (match t.saved_resource with | some r => !(r == "") | none => false) then
    match t.saved_source with
    | some saved_src =>
      let cur_road := (find_nearest_road_to_cell w.road_grid t.current_cell).getD t.current_cell
      match find_nearest_road_to_cell w.road_grid saved_src with
      | some src_road =>
        let path_back := find_path_on_roads w.road_grid cur_road src_road
        if !path_back.isEmpty then
          (w, { t with path_cells := path_back ++ [saved_src], state := "to_source", cargo_type := t.saved_resource, dest_cell := t.saved_dest })
        else (w, { t with state := "idle", cargo_type := none, dest_cell := none })
      | none => (w, { t with state := "idle", cargo_type := none, dest_cell := none })
    | none => (w, { t with state := "idle", cargo_type := none, dest_cell := none })
  else (w, { t with state := "idle", cargo_type := none, dest_cell := none })

/-- Lines 1761–1842: the `to_dest` branch (unload, refinery wait entry, the
stray base stone pickup, then repeat-or-idle). -/
def toDestArrival (w : Game) (t : Truck) : Game × Truck :=
  match t.dest_cell with
  | none => (w, { t with state := "idle" })
  | some dest_cell =>
    if t.current_cell == dest_cell then
      if dest_cell == w.base_cell then
        let wt :=
          if (t.cargo_type == some "wood" || t.cargo_type == some "stone" ||
              t.cargo_type == some "bmats") && 0 < t.cargo_amount then
            let delivered := pyInt t.cargo_amount
            let key := t.cargo_type.getD ""
            ({ w with resources := sset w.resources key (sget w.resources key + (delivered : ℚ)) },
             { t with cargo_amount := 0 })
          else (w, t)
        repeatOrIdle wt.1 wt.2
      else
        match get_building_at_cell w dest_cell with
        | some dest_building =>
          if t.cargo_type == some "stone" && dest_building.type == "refinery" &&
              0 < t.cargo_amount then
            let delivered := pyInt t.cargo_amount
            let w1 := { w with buildings := modifyBuildingAt w.buildings dest_cell (fun bb =>
                { bb with storage := sset bb.storage "stone" (sget bb.storage "stone" + (delivered : ℚ)) }) }
            let t1 := { t with cargo_amount := 0 }
            if 0 < delivered then
              (w1, { t1 with state := "waiting_for_bmats", waiting_timer := some 0, waiting_target := some (delivered : ℚ) })
            else repeatOrIdle w1 t1
          else if (t.cargo_type == some "wood" || t.cargo_type == some "bmats") &&
              0 < t.cargo_amount then
            let delivered := pyInt t.cargo_amount
            let key := t.cargo_type.getD ""
            repeatOrIdle
              { w with resources := sset w.resources key (sget w.resources key + (delivered : ℚ)) }
              { t with cargo_amount := 0 }
          else repeatOrIdle w t
        | none => repeatOrIdle w t
    else
      if t.refinery_loop && t.cargo_type == some "stone" && t.cargo_amount == 0 then
        if is_cell_in_base_area w t.current_cell then
          let amount_available := sget w.resources "stone"
          let target_load : ℚ := 5
          let load_amount := min target_load (min amount_available (t.cargo_capacity - t.cargo_amount))
          if 0 < load_amount then
            let w1 := { w with resources := sset w.resources "stone" (max 0 (amount_available - load_amount)) }
            repeatOrIdle w1 { t with cargo_amount := t.cargo_amount + load_amount }
          else (w, { t with state := "idle" })
        else repeatOrIdle w t
      else repeatOrIdle w t

/-- `on_truck_arrival`: dispatch on the truck state. -/
def on_truck_arrival (w : Game) (t : Truck) : Game × Truck :=
  if t.state == "to_source" then
    match t.saved_source with
    | none => (w, { t with state := "idle" })
    | some src_cell =>
      if t.current_cell == src_cell then
        match get_building_at_cell w src_cell with
        | none => (w, { t with state := "idle" })
        | some src_building => loadAndRoute w t src_cell src_building
      else (w, t)
  else if t.state == "waiting_for_bmats" then waitingStep w t
  else if t.state == "to_dest" then toDestArrival w t
  else (w, t)

/-- `update_truck`: move along the path; on reaching the final cell call
`on_truck_arrival`. The pixel geometry (Euclidean distance) lives in `ℝ`. -/
noncomputable def update_truck (w : Game) (t : Truck) (dt : ℚ) : Game × Truck :=
  match t.path_cells with
  | [] => (w, t)
  | next_cell :: restPath =>
    let target_px : ℝ × ℝ := (((next_cell.1 * 32 + 16 : ℤ) : ℝ), ((next_cell.2 * 32 + 16 : ℤ) : ℝ))
    let vx := target_px.1 - t.position_px.1
    let vy := target_px.2 - t.position_px.2
    let dist := Real.sqrt (vx * vx + vy * vy)
    if dist < 1 / 1000 then
      let t1 := { t with position_px := target_px, current_cell := next_cell, path_cells := restPath }
      if restPath.isEmpty then on_truck_arrival w t1 else (w, t1)
    else
      let step := (t.speed_px_per_sec : ℝ) * (dt : ℝ)
      if dist ≤ step then (w, { t with position_px := target_px })
      else
        (w, { t with position_px :=
          (t.position_px.1 + vx / dist * step, t.position_px.2 + vy / dist * step) })

/-- `update(dt)`: the production pass, then each truck in order. -/
noncomputable def update (w : World) (dt : ℚ) : World :=
  let core1 := updateProduction w.core dt
  let r := w.trucks.foldl
    (fun (acc : Game × List Truck) t =>
      let s := update_truck acc.1 t dt
      (s.1, acc.2 ++ [s.2]))
    (core1, [])
  { w with core := r.1, trucks := r.2 }

/-- Iterated ticks. -/
noncomputable def updateList (w : World) : List ℚ → World
  | [] => w
  | dt :: ds => updateList (update w dt) ds

/-! ### BFS invariants (proof side) -/

/-- Invariant of the BFS parent map: keys are distinct, the start maps to
`none`, every other entry records a driveable cell adjacent to its parent,
and every key carries its exact BFS distance, one more than its parent's. -/
structure CameInv (g : RoadGrid) (start : Coord) (m : Came) : Prop where
  start_val : cameGet m start = some none
  nodup : (m.map Prod.fst).Nodup
  root : ∀ v, cameGet m v = some none → v = start
  parent : ∀ v p, cameGet m v = some (some p) →
    cameHas m p = true ∧ v ∈ neighbors4 p ∧ is_driveable g v = true
  depth : ∀ v, cameHas m v = true → ∃ n, isMinReach g start n v ∧
    ∀ p, cameGet m v = some (some p) → ∃ k, isMinReach g start k p ∧ n = k + 1

/-- Invariant of the BFS loop state: the queue holds recorded cells, split
into a block at distance `d` followed by a block at distance `d + 1`, and
every dequeued cell already has all its driveable neighbours recorded. -/
structure LoopInv (g : RoadGrid) (start : Coord) (q : List Coord) (m : Came)
    (d : ℕ) : Prop where
  came : CameInv g start m
  qkeys : ∀ v ∈ q, cameHas m v = true
  qsplit : ∃ A B, q = A ++ B ∧ (∀ v ∈ A, isMinReach g start d v) ∧
    (∀ v ∈ B, isMinReach g start (d + 1) v)
  closed : ∀ v, cameHas m v = true → v ∉ q →
    ∀ nb ∈ neighbors4 v, is_driveable g nb = true → cameHas m nb = true

/-! ### Invariants and concrete states used by the claims -/

/-- The truck invariant of claim C5: cargo within `[0, capacity]`, and a
waiting truck's recorded target within the same bounds (established at the
stone delivery that enters the waiting state). -/
def TruckInv (t : Truck) : Prop :=
  0 ≤ t.cargo_amount ∧ t.cargo_amount ≤ t.cargo_capacity ∧
  (t.state = "waiting_for_bmats" →
    ∃ wt, t.waiting_target = some wt ∧ 0 ≤ wt ∧ wt ≤ t.cargo_capacity)

/-- Every entry of the resource pool is an integer. -/
def ResIntegral (r : Storage) : Prop :=
  ∀ k, ∃ z : ℤ, sget r k = (z : ℚ)

/-- Every entry of the resource pool is nonnegative. -/
def ResNonneg (r : Storage) : Prop :=
  ∀ k, 0 ≤ sget r k

/-- No building occupies the base cell (placement validators reject the 4×4
neighbourhood of the base, so this holds in every reachable state). -/
def NoBuildingAtBase (w : Game) : Prop :=
  get_building_at_cell w w.base_cell = none

/-- The initial resource pool (`bmats = 10`). -/
def initResources : Storage :=
  [("oil", 0), ("steel", 0), ("wood", 0), ("stone", 0), ("bmats", 10)]

/-- A small driveable corridor from the base `(0,0)` to `(3,0)`. -/
def gridCorridor : RoadGrid :=
  [((0, 0), 1), ((1, 0), 1), ((2, 0), 1), ((3, 0), 1)]

/-- C1: a refinery at `(3,0)` holding 5 bmats, conversion idle. -/
def refineryC1 : Building :=
  ⟨"refinery", (3, 0), 0, 0.2, [("stone", 0), ("bmats", 5)], some 0⟩

/-- C1: a truck parked at the refinery in `waiting_for_bmats` with an empty
path and `waiting_target = 5` — exactly the state reached after delivering
5 stone. -/
def truckC1 : Truck :=
  { truck_id := 1,
    position_px := ((112 : ℝ), (16 : ℝ)),
    current_cell := (3, 0),
    path_cells := [],
    speed_px_per_sec := 32 * 1.2,
    state := "waiting_for_bmats",
    cargo_type := some "stone",
    cargo_amount := 0,
    cargo_capacity := 20,
    repeat_enabled := false,
    saved_source := some (0, 0),
    saved_dest := some (3, 0),
    saved_resource := some "stone",
    dest_cell := some (3, 0),
    refinery_loop := true,
    stone_delivered := some 5,
    waiting_timer := some 0,
    waiting_target := some 5 }

/-- C1: the full world around `truckC1`. -/
def worldC1 : World :=
  { core :=
      { base_cell := (0, 0),
        roads := {((2, 0) : Coord)},
        road_grid := gridCorridor,
        trees := ∅,
        stones := ∅,
        resources := initResources,
        buildings := [refineryC1] },
    trucks := [truckC1],
    next_truck_id := 2,
    trucks_built := 2 }

/-- C3: a road-connected refinery holding 3 stone, timer unset. -/
def refineryC3 : Building :=
  ⟨"refinery", (3, 0), 0, 0.2, [("stone", 3), ("bmats", 0)], none⟩

/-- C3: world with only that refinery and no trucks. -/
def worldC3 : World :=
  { core :=
      { base_cell := (0, 0),
        roads := {((2, 0) : Coord)},
        road_grid := gridCorridor,
        trees := ∅,
        stones := ∅,
        resources := initResources,
        buildings := [refineryC3] },
    trucks := [],
    next_truck_id := 1,
    trucks_built := 2 }

/-- C3: the refinery after one 5-second conversion. -/
def refineryC3b : Building :=
  ⟨"refinery", (3, 0), 0, 0.2, [("stone", 2), ("bmats", 1)], some 0⟩

/-- C3: the refinery after two conversions. -/
def refineryC3c : Building :=
  ⟨"refinery", (3, 0), 0, 0.2, [("stone", 1), ("bmats", 2)], some 0⟩

/-- C3: the refinery after three conversions: `bmats = 3`, `stone = 0`. -/
def refineryC3d : Building :=
  ⟨"refinery", (3, 0), 0, 0.2, [("stone", 0), ("bmats", 3)], some 0⟩

/-- C3: the world after the first 5-second tick. -/
def worldC3b : World :=
  { worldC3 with core := { worldC3.core with buildings := [refineryC3b] } }

/-- C3: the world after the second tick. -/
def worldC3c : World :=
  { worldC3 with core := { worldC3.core with buildings := [refineryC3c] } }

/-- C3: the world after the third tick. -/
def worldC3d : World :=
  { worldC3 with core := { worldC3.core with buildings := [refineryC3d] } }

/-- C4/C9: a fresh world, base at the origin, one far-away tree. -/
def worldOrigin : Game :=
  { base_cell := (0, 0),
    roads := ∅,
    road_grid := [((0, 0), 1), ((1, 0), 1), ((0, 1), 1), ((1, 1), 1)],
    trees := {((20, 20) : Coord)},
    stones := ∅,
    resources := initResources,
    buildings := [] }

/-- C4/C9 step 1: place a lumber camp at `(5,5)`. -/
def worldCamp : Game := place_lumber_camp worldOrigin (5, 5)

/-- C4/C9 step 2: paint a road on the very cell of the camp — `paint_cell`
does not check building footprints, so this succeeds. -/
def worldCampRoad : Game := paint_cell worldCamp (5, 5)

/-- C4 step 3: bulldoze the road cell `(5,5)` while the camp still stands. -/
def worldBulldozed : Game := execute_bulldoze worldCampRoad [(5, 5)]

/-- C6: a lumber camp with positive rate on an empty road grid (no
connectivity to the base). -/
def worldC6 : Game :=
  { base_cell := (0, 0),
    roads := ∅,
    road_grid := [],
    trees := ∅,
    stones := ∅,
    resources := initResources,
    buildings := [⟨"lumber", (9, 9), 5, 0.2, [("wood", 7 / 2)], none⟩] }

/-- C2 witness: a two-cell road east of the start. -/
def gridC2 : RoadGrid := [((1, 0), 1), ((2, 0), 1)]

/-- C7 counterexample: a world whose only driveable cells are the base
footprint, far away from the saved source `(50,50)`. -/
def worldC7 : Game :=
  { base_cell := (0, 0),
    roads := ∅,
    road_grid := [((0, 0), 1), ((1, 0), 1), ((0, 1), 1), ((1, 1), 1)],
    trees := ∅,
    stones := ∅,
    resources := initResources,
    buildings := [] }

/-- C7 counterexample: a repeat-enabled truck that just arrived back at the
base with 5 wood, whose saved source lies beyond any road. -/
def truckC7 : Truck :=
  { truck_id := 1,
    position_px := ((16 : ℝ), (16 : ℝ)),
    current_cell := (0, 0),
    path_cells := [],
    speed_px_per_sec := 32 * 1.2,
    state := "to_dest",
    cargo_type := some "wood",
    cargo_amount := 5,
    cargo_capacity := 20,
    repeat_enabled := true,
    saved_source := some (50, 50),
    saved_dest := some (0, 0),
    saved_resource := some "wood",
    dest_cell := some (0, 0),
    refinery_loop := false,
    stone_delivered := none,
    waiting_timer := none,
    waiting_target := none }

/-- C7 witness: same world but with a road reaching the saved source `(3,0)`. -/
def truckC7w : Truck :=
  { truckC7 with
    saved_source := some (3, 0),
    saved_dest := some (0, 0) }

/-- C7 witness world: the corridor grid reaches `(3,0)`. -/
def worldC7w : Game :=
  { worldC7 with road_grid := gridCorridor }

/-! ## Lemmas: association-list maps -/

theorem cameHas_iff_mem (m : Came) (c : Coord) :
    cameHas m c = true ↔ c ∈ m.map Prod.fst := by
  induction m with
  | nil => simp [cameHas]
  | cons p m ih =>
    simp only [cameHas, List.any_cons, List.map_cons, List.mem_cons, Bool.or_eq_true,
      beq_iff_eq] at *
    constructor
    · rintro (h | h)
      · exact Or.inl h.symm
      · exact Or.inr (ih.mp h)
    · rintro (h | h)
      · exact Or.inl h.symm
      · exact Or.inr (ih.mpr h)

theorem cameHas_append (m n : Came) (c : Coord) :
    cameHas (m ++ n) c = (cameHas m c || cameHas n c) := by
  simp [cameHas, List.any_append]

theorem cameGet_eq_none (m : Came) (c : Coord) (h : cameHas m c = false) :
    cameGet m c = none := by
  induction m with
  | nil => simp [cameGet]
  | cons p m ih =>
    simp only [cameHas, List.any_cons, Bool.or_eq_false_iff, beq_eq_false_iff_ne] at h
    simp only [cameGet, List.find?_cons]
    have : (p.1 == c) = false := by simpa using h.1
    rw [this]
    exact ih h.2

theorem cameGet_isSome (m : Came) (c : Coord) (h : cameHas m c = true) :
    ∃ v, cameGet m c = some v := by
  induction m with
  | nil => simp [cameHas] at h
  | cons p m ih =>
    simp only [cameHas, List.any_cons, Bool.or_eq_true, beq_iff_eq] at h
    simp only [cameGet, List.find?_cons]
    by_cases hp : p.1 = c
    · refine ⟨p.2, ?_⟩
      have : (p.1 == c) = true := by simpa using hp
      rw [this]
    · have : (p.1 == c) = false := by simpa using hp
      rw [this]
      rcases h with h | h
      · exact absurd h hp
      · exact ih h

theorem cameHas_of_get (m : Came) (c : Coord) (v : Option Coord)
    (h : cameGet m c = some v) : cameHas m c = true := by
  by_contra hc
  rw [cameGet_eq_none m c (by simpa using hc)] at h
  exact Option.noConfusion h

theorem cameGet_append_left (m n : Came) (c : Coord) (h : cameHas m c = true) :
    cameGet (m ++ n) c = cameGet m c := by
  induction m with
  | nil => simp [cameHas] at h
  | cons p m ih =>
    simp only [cameHas, List.any_cons, Bool.or_eq_true, beq_iff_eq] at h
    simp only [cameGet, List.cons_append, List.find?_cons]
    by_cases hp : p.1 = c
    · have : (p.1 == c) = true := by simpa using hp
      rw [this]
    · have hb : (p.1 == c) = false := by simpa using hp
      rw [hb]
      rcases h with h | h
      · exact absurd h hp
      · exact ih h

theorem cameGet_append_right (m n : Came) (c : Coord) (h : cameHas m c = false) :
    cameGet (m ++ n) c = cameGet n c := by
  induction m with
  | nil => simp
  | cons p m ih =>
    simp only [cameHas, List.any_cons, Bool.or_eq_false_iff, beq_eq_false_iff_ne] at h
    simp only [cameGet, List.cons_append, List.find?_cons]
    have : (p.1 == c) = false := by simpa using h.1
    rw [this]
    exact ih h.2

theorem cameHas_mono (m n : Came) (c : Coord) (h : cameHas m c = true) :
    cameHas (m ++ n) c = true := by
  rw [cameHas_append, h, Bool.true_or]

/-! ## Lemmas: 4-neighbourhood and reachability -/

theorem mem_neighbors4_symm (a b : Coord) :
    a ∈ neighbors4 b ↔ b ∈ neighbors4 a := by
  rcases a with ⟨ax, ay⟩
  rcases b with ⟨bx, by'⟩
  simp only [neighbors4, List.mem_cons, List.mem_singleton, Prod.mk.injEq,
    List.not_mem_nil, or_false]
  constructor
  · rintro (⟨h1, h2⟩ | ⟨h1, h2⟩ | ⟨h1, h2⟩ | ⟨h1, h2⟩) <;> omega
  · rintro (⟨h1, h2⟩ | ⟨h1, h2⟩ | ⟨h1, h2⟩ | ⟨h1, h2⟩) <;> omega

theorem reachN_step (g : RoadGrid) (start : Coord) (n : ℕ) (u v : Coord)
    (hu : ReachN g start n u) (hadj : v ∈ neighbors4 u)
    (hdrv : is_driveable g v = true) : ReachN g start (n + 1) v :=
  ⟨hdrv, u, hu, hadj⟩

theorem exists_isMinReach (g : RoadGrid) (start v : Coord)
    (h : Reachable g start v) : ∃ n, isMinReach g start n v := by
  classical
  exact ⟨Nat.find h, Nat.find_spec h, fun m hm => Nat.find_min' h hm⟩

theorem isMinReach_unique (g : RoadGrid) (start v : Coord) (n k : ℕ)
    (hn : isMinReach g start n v) (hk : isMinReach g start k v) : n = k :=
  le_antisymm (hn.2 k hk.1) (hk.2 n hn.1)

theorem isMinReach_zero (g : RoadGrid) (start : Coord) :
    isMinReach g start 0 start :=
  ⟨rfl, fun m _ => Nat.zero_le m⟩

theorem reachN_start_eq_zero (g : RoadGrid) (start : Coord) (n : ℕ)
    (h : isMinReach g start n start) : n = 0 :=
  isMinReach_unique g start start n 0 h (isMinReach_zero g start)

/-! ## Lemmas: BFS loop invariants -/

theorem short_mem (g : RoadGrid) (start : Coord) (q : List Coord) (m : Came)
    (d : ℕ) (inv : LoopInv g start q m d) :
    ∀ n, n ≤ d → ∀ w, ReachN g start n w → cameHas m w = true := by
  intro n
  induction n with
  | zero =>
    intro _ w hw
    have hws : w = start := hw
    subst hws
    exact cameHas_of_get m w none inv.came.start_val
  | succ n ih =>
    intro hnd w hw
    obtain ⟨hdrv, u, hu, hadj⟩ := hw
    have humem : cameHas m u = true := ih (Nat.le_of_succ_le hnd) u hu
    by_cases huq : u ∈ q
    · exfalso
      obtain ⟨A, B, hAB, hA, hB⟩ := inv.qsplit
      rw [hAB] at huq
      rcases List.mem_append.mp huq with h | h
      · have := (hA u h).2 n hu
        omega
      · have := (hB u h).2 n hu
        omega
    · exact inv.closed u humem huq w hadj hdrv

theorem closed_complete (g : RoadGrid) (start : Coord) (m : Came)
    (inv : CameInv g start m)
    (hcl : ∀ v, cameHas m v = true → ∀ nb ∈ neighbors4 v,
      is_driveable g nb = true → cameHas m nb = true) :
    ∀ n w, ReachN g start n w → cameHas m w = true := by
  intro n
  induction n with
  | zero =>
    intro w hw
    have hws : w = start := hw
    subst hws
    exact cameHas_of_get m w none inv.start_val
  | succ n ih =>
    intro w hw
    obtain ⟨hdrv, u, hu, hadj⟩ := hw
    exact hcl u (ih u hu) w hadj hdrv

theorem cameInv_insert (g : RoadGrid) (start : Coord) (m : Came) (d : ℕ)
    (inv : CameInv g start m) (cur nb : Coord)
    (hcur : cameHas m cur = true) (hcurd : isMinReach g start d cur)
    (hadj : nb ∈ neighbors4 cur) (hdrv : is_driveable g nb = true)
    (hnew : cameHas m nb = false) (hmin : isMinReach g start (d + 1) nb) :
    CameInv g start (m ++ [(nb, some cur)]) := by
  have hget_old : ∀ c, cameHas m c = true → cameGet (m ++ [(nb, some cur)]) c = cameGet m c :=
    fun c hc => cameGet_append_left m _ c hc
  have hget_nb : cameGet (m ++ [(nb, some cur)]) nb = some (some cur) := by
    rw [cameGet_append_right m _ nb hnew]
    simp [cameGet, List.find?_cons]
  have hhas_iff : ∀ c, cameHas (m ++ [(nb, some cur)]) c = true ↔
      (cameHas m c = true ∨ c = nb) := by
    intro c
    rw [cameHas_append]
    simp only [Bool.or_eq_true]
    constructor
    · rintro (h | h)
      · exact Or.inl h
      · simp only [cameHas, List.any_cons, List.any_nil, Bool.or_false, beq_iff_eq] at h
        exact Or.inr h.symm
    · rintro (h | h)
      · exact Or.inl h
      · subst h
        refine Or.inr ?_
        simp [cameHas]
  have hget_other : ∀ c, cameHas m c = false → c ≠ nb →
      cameGet (m ++ [(nb, some cur)]) c = none := by
    intro c hc hcnb
    rw [cameGet_append_right m _ c hc]
    simp only [cameGet, List.find?_cons]
    have : (nb == c) = false := by simpa using fun h => hcnb h.symm
    rw [this]
    simp [List.find?]
  refine ⟨?_, ?_, ?_, ?_, ?_⟩
  · rw [hget_old start (cameHas_of_get m start none inv.start_val)]
    exact inv.start_val
  · rw [List.map_append]
    simp only [List.map_cons, List.map_nil]
    refine List.Nodup.append inv.nodup (List.nodup_singleton nb) ?_
    intro a ha hb
    simp only [List.mem_singleton] at hb
    subst hb
    rw [← cameHas_iff_mem] at ha
    rw [ha] at hnew
    exact Bool.noConfusion hnew
  · intro v hv
    by_cases hvm : cameHas m v = true
    · rw [hget_old v hvm] at hv
      exact inv.root v hv
    · by_cases hvnb : v = nb
      · subst hvnb
        rw [hget_nb] at hv
        exact absurd hv (by simp)
      · rw [hget_other v (by simpa using hvm) hvnb] at hv
        exact Option.noConfusion hv
  · intro v p hv
    by_cases hvm : cameHas m v = true
    · rw [hget_old v hvm] at hv
      obtain ⟨h1, h2, h3⟩ := inv.parent v p hv
      exact ⟨cameHas_mono m _ p h1, h2, h3⟩
    · by_cases hvnb : v = nb
      · subst hvnb
        rw [hget_nb] at hv
        have hp : p = cur := by
          injection hv with hv
          injection hv with hv
          exact hv.symm
        subst hp
        exact ⟨cameHas_mono m _ p hcur, hadj, hdrv⟩
      · rw [hget_other v (by simpa using hvm) hvnb] at hv
        exact Option.noConfusion hv
  · intro v hv
    rcases (hhas_iff v).mp hv with hvm | hvnb
    · obtain ⟨n, hn, hpar⟩ := inv.depth v hvm
      refine ⟨n, hn, ?_⟩
      intro p hp
      rw [hget_old v hvm] at hp
      exact hpar p hp
    · subst hvnb
      refine ⟨d + 1, hmin, ?_⟩
      intro p hp
      rw [hget_nb] at hp
      have hpcur : p = cur := by
        injection hp with hp
        injection hp with hp
        exact hp.symm
      subst hpcur
      exact ⟨d, hcurd, rfl⟩

theorem bfsScan_spec (g : RoadGrid) (start cur : Coord) (d : ℕ)
    (hcurd : isMinReach g start d cur) :
    ∀ (nbs q : List Coord) (m : Came),
      (∀ nb ∈ nbs, nb ∈ neighbors4 cur) →
      CameInv g start m →
      cameHas m cur = true →
      (∀ n, n ≤ d → ∀ w, ReachN g start n w → cameHas m w = true) →
      ∃ new : List Coord,
        bfsScan g cur nbs (q, m) =
          (q ++ new, m ++ new.map (fun c => (c, some cur))) ∧
        (∀ v ∈ new, isMinReach g start (d + 1) v ∧ is_driveable g v = true ∧
          cameHas m v = false) ∧
        new.Nodup ∧
        CameInv g start (m ++ new.map (fun c => (c, some cur))) ∧
        (∀ nb ∈ nbs, is_driveable g nb = true →
          cameHas (m ++ new.map (fun c => (c, some cur))) nb = true) := by
  intro nbs
  induction nbs with
  | nil =>
    intro q m _ hm _ _
    refine ⟨[], ?_, ?_, List.nodup_nil, ?_, ?_⟩
    · simp [bfsScan]
    · simp
    · simpa using hm
    · simp
  | cons nb nbs ih =>
    intro q m hadj hm hcur hshort
    by_cases hguard : is_driveable g nb = true ∧ cameHas m nb = false
    · -- insert nb, then continue
      obtain ⟨hdrv, hnew⟩ := hguard
      have hnbadj : nb ∈ neighbors4 cur := hadj nb (List.mem_cons_self nb nbs)
      have hmin : isMinReach g start (d + 1) nb := by
        refine ⟨reachN_step g start d cur nb hcurd.1 hnbadj hdrv, ?_⟩
        intro k hk
        by_contra hlt
        have hk_le : k ≤ d := by omega
        have := hshort k hk_le nb hk
        rw [this] at hnew
        exact Bool.noConfusion hnew
      have hm1 : CameInv g start (m ++ [(nb, some cur)]) :=
        cameInv_insert g start m d hm cur nb hcur hcurd hnbadj hdrv hnew hmin
      have hcur1 : cameHas (m ++ [(nb, some cur)]) cur = true :=
        cameHas_mono m _ cur hcur
      have hshort1 : ∀ n, n ≤ d → ∀ w, ReachN g start n w →
          cameHas (m ++ [(nb, some cur)]) w = true :=
        fun n hn w hw => cameHas_mono m _ w (hshort n hn w hw)
      obtain ⟨new2, heq, hfacts, hnd, hinv, hlast⟩ :=
        ih (q ++ [nb]) (m ++ [(nb, some cur)])
          (fun x hx => hadj x (List.mem_cons_of_mem nb hx)) hm1 hcur1 hshort1
      have hassocq : q ++ [nb] ++ new2 = q ++ (nb :: new2) := by
        simp
      have hassocm : m ++ [(nb, some cur)] ++ new2.map (fun c => (c, some cur)) =
          m ++ ((nb :: new2).map (fun c => (c, some cur))) := by
        simp
      refine ⟨nb :: new2, ?_, ?_, ?_, ?_, ?_⟩
      · have hstep : bfsScan g cur (nb :: nbs) (q, m) =
            bfsScan g cur nbs (q ++ [nb], m ++ [(nb, some cur)]) := by
          simp [bfsScan, hdrv, hnew]
        rw [hstep, heq, hassocq, hassocm]
      · intro v hv
        rcases List.mem_cons.mp hv with hv | hv
        · subst hv
          exact ⟨hmin, hdrv, hnew⟩
        · obtain ⟨h1, h2, h3⟩ := hfacts v hv
          refine ⟨h1, h2, ?_⟩
          by_contra hc
          have : cameHas (m ++ [(nb, some cur)]) v = true :=
            cameHas_mono m _ v (by simpa using hc)
          rw [this] at h3
          exact Bool.noConfusion h3
      · refine List.Nodup.cons ?_ hnd
        intro hmem
        have := (hfacts nb hmem).2.2
        have hhas : cameHas (m ++ [(nb, some cur)]) nb = true := by
          rw [cameHas_append]
          simp [cameHas]
        rw [hhas] at this
        exact Bool.noConfusion this
      · rw [← hassocm]
        exact hinv
      · intro x hx hxdrv
        rcases List.mem_cons.mp hx with hx | hx
        · subst hx
          rw [← hassocm]
          apply cameHas_mono
          rw [cameHas_append]
          simp [cameHas]
        · rw [← hassocm]
          exact hlast x hx hxdrv
    · -- skip nb
      have hskip : bfsScan g cur (nb :: nbs) (q, m) = bfsScan g cur nbs (q, m) := by
        simp only [bfsScan]
        by_cases hdrv : is_driveable g nb = true
        · have hnbhas : cameHas m nb = true := by
            by_contra hc
            exact hguard ⟨hdrv, by simpa using hc⟩
          simp [hdrv, hnbhas]
        · simp [Bool.not_eq_true] at hdrv
          simp [hdrv]
      obtain ⟨new2, heq, hfacts, hnd, hinv, hlast⟩ :=
        ih q m (fun x hx => hadj x (List.mem_cons_of_mem nb hx)) hm hcur hshort
      refine ⟨new2, by rw [hskip, heq], hfacts, hnd, hinv, ?_⟩
      intro x hx hxdrv
      rcases List.mem_cons.mp hx with hx | hx
      · subst hx
        have hnbhas : cameHas m x = true := by
          by_contra hc
          exact hguard ⟨hxdrv, by simpa using hc⟩
        exact cameHas_mono m _ x hnbhas
      · exact hlast x hx hxdrv

theorem driveable_mem_driveableCells (g : RoadGrid) (c : Coord)
    (h : is_driveable g c = true) : c ∈ driveableCells g := by
  have hget : gridGet g c = 1 := by
    simpa [is_driveable] using h
  have hfind : ∃ p, g.find? (fun p => p.1 == c) = some p := by
    by_contra hc
    push_neg at hc
    have hnone : g.find? (fun p => p.1 == c) = none := by
      cases hf : g.find? (fun p => p.1 == c) with
      | none => rfl
      | some p => exact absurd hf (hc p)
    rw [gridGet, hnone] at hget
    exact absurd hget (by norm_num)
  obtain ⟨p, hp⟩ := hfind
  have hmem : p ∈ g := List.mem_of_find?_eq_some hp
  have hpc : p.1 = c := by
    have := List.find?_some hp
    simpa using this
  refine Finset.mem_filter.mpr ⟨?_, h⟩
  rw [List.mem_toFinset]
  exact List.mem_map.mpr ⟨p, hmem, hpc⟩

theorem map_fst_pair (l : List Coord) (p : Option Coord) :
    (l.map (fun c => (c, p))).map Prod.fst = l := by
  induction l with
  | nil => rfl
  | cons a t ih2 => simpa using ih2

theorem pop_invariants (g : RoadGrid) (start cur : Coord) (rest : List Coord)
    (m : Came) (d : ℕ) (inv : LoopInv g start (cur :: rest) m d) :
    ∃ d2 A2 B2, rest = A2 ++ B2 ∧ isMinReach g start d2 cur ∧
      (∀ v ∈ A2, isMinReach g start d2 v) ∧
      (∀ v ∈ B2, isMinReach g start (d2 + 1) v) ∧
      (∀ n, n ≤ d2 → ∀ w, ReachN g start n w → cameHas m w = true) := by
  obtain ⟨A, B, hAB, hA, hB⟩ := inv.qsplit
  cases A with
  | nil =>
    simp only [List.nil_append] at hAB
    refine ⟨d + 1, rest, [], by simp, ?_, ?_, ?_, ?_⟩
    · exact hB cur (by rw [← hAB]; exact List.mem_cons_self cur rest)
    · intro v hv
      exact hB v (by rw [← hAB]; exact List.mem_cons_of_mem cur hv)
    · intro v hv
      exact absurd hv (List.not_mem_nil v)
    · intro n hn w hw
      by_cases hnd : n ≤ d
      · exact short_mem g start (cur :: rest) m d inv n hnd w hw
      · have hn1 : n = d + 1 := by omega
        subst hn1
        obtain ⟨hdrv, u, hu, hadj⟩ := hw
        have humem : cameHas m u = true :=
          short_mem g start (cur :: rest) m d inv d le_rfl u hu
        by_cases huq : u ∈ cur :: rest
        · exfalso
          have hud : isMinReach g start (d + 1) u := hB u (by rw [← hAB]; exact huq)
          have := hud.2 d hu
          omega
        · exact inv.closed u humem huq w hadj hdrv
  | cons a A2 =>
    have hcur : cur = a := by
      have := hAB
      simp only [List.cons_append] at this
      exact (List.cons_eq_cons.mp this).1
    have hrest : rest = A2 ++ B := by
      have := hAB
      simp only [List.cons_append] at this
      exact (List.cons_eq_cons.mp this).2
    refine ⟨d, A2, B, hrest, ?_, ?_, hB, ?_⟩
    · rw [hcur]
      exact hA a (List.mem_cons_self a A2)
    · intro v hv
      exact hA v (List.mem_cons_of_mem a hv)
    · exact short_mem g start (cur :: rest) m d inv

theorem bfsAux_spec (g : RoadGrid) (start goal : Coord) :
    ∀ (fuel : ℕ) (q : List Coord) (m : Came) (d : ℕ),
      LoopInv g start q m d →
      q.length + 2 * ((driveableCells g) \ (m.map Prod.fst).toFinset).card ≤ fuel →
      CameInv g start (bfsAux g goal fuel q m) ∧
      (Reachable g start goal → cameHas (bfsAux g goal fuel q m) goal = true) := by
  intro fuel
  induction fuel with
  | zero =>
    intro q m d inv hfuel
    have hq : q = [] := by
      have : q.length = 0 := by omega
      exact List.length_eq_zero.mp this
    subst hq
    have hout : bfsAux g goal 0 [] m = m := by simp [bfsAux]
    rw [hout]
    refine ⟨inv.came, ?_⟩
    rintro ⟨n, hn⟩
    exact closed_complete g start m inv.came
      (fun v hv => inv.closed v hv (List.not_mem_nil v)) n goal hn
  | succ fuel ih =>
    intro q m d inv hfuel
    cases q with
    | nil =>
      have hout : bfsAux g goal (fuel + 1) [] m = m := by simp [bfsAux]
      rw [hout]
      refine ⟨inv.came, ?_⟩
      rintro ⟨n, hn⟩
      exact closed_complete g start m inv.came
        (fun v hv => inv.closed v hv (List.not_mem_nil v)) n goal hn
    | cons cur rest =>
      by_cases hgoal : cur = goal
      · have hbeq : (cur == goal) = true := by simpa using hgoal
        have hout : bfsAux g goal (fuel + 1) (cur :: rest) m = m := by
          simp [bfsAux, hbeq]
        rw [hout]
        refine ⟨inv.came, fun _ => ?_⟩
        rw [← hgoal]
        exact inv.qkeys cur (List.mem_cons_self cur rest)
      · have hbeq : (cur == goal) = false := by simpa using hgoal
        obtain ⟨d2, A2, B2, hrest, hcurd, hA2, hB2, hshort⟩ :=
          pop_invariants g start cur rest m d inv
        have hcurhas : cameHas m cur = true :=
          inv.qkeys cur (List.mem_cons_self cur rest)
        obtain ⟨new, heq, hfacts, hnd, hinv2, hlast⟩ :=
          bfsScan_spec g start cur d2 hcurd (neighbors4 cur) rest m
            (fun nb h => h) inv.came hcurhas hshort
        have hout : bfsAux g goal (fuel + 1) (cur :: rest) m =
            bfsAux g goal fuel (rest ++ new)
              (m ++ new.map (fun c => (c, some cur))) := by
          simp only [bfsAux, hbeq, Bool.false_eq_true, if_false, heq]
        rw [hout]
        have hmapfst : (new.map (fun c => (c, some cur))).map Prod.fst = new :=
          map_fst_pair new (some cur)
        have hkeys : (m ++ new.map (fun c => (c, some cur))).map Prod.fst =
            m.map Prod.fst ++ new := by
          rw [List.map_append, hmapfst]
        have hnewhas : ∀ v ∈ new,
            cameHas (m ++ new.map (fun c => (c, some cur))) v = true := by
          intro v hv
          rw [cameHas_iff_mem, hkeys]
          exact List.mem_append.mpr (Or.inr hv)
        have hmemcase : ∀ v, cameHas (m ++ new.map (fun c => (c, some cur))) v = true →
            cameHas m v = true ∨ v ∈ new := by
          intro v hv
          rw [cameHas_iff_mem, hkeys] at hv
          rcases List.mem_append.mp hv with h | h
          · exact Or.inl ((cameHas_iff_mem m v).mpr h)
          · exact Or.inr h
        have hinvNew : LoopInv g start (rest ++ new)
            (m ++ new.map (fun c => (c, some cur))) d2 := by
          refine ⟨hinv2, ?_, ?_, ?_⟩
          · intro v hv
            rcases List.mem_append.mp hv with h | h
            · exact cameHas_mono m _ v (inv.qkeys v (List.mem_cons_of_mem cur h))
            · exact hnewhas v h
          · refine ⟨A2, B2 ++ new, by rw [hrest, List.append_assoc], hA2, ?_⟩
            intro v hv
            rcases List.mem_append.mp hv with h | h
            · exact hB2 v h
            · exact (hfacts v h).1
          · intro v hv hvq nb hnb hnbdrv
            rcases hmemcase v hv with hvm | hvnew
            · by_cases hvcur : v = cur
              · subst hvcur
                exact hlast nb hnb hnbdrv
              · have hvq0 : v ∉ cur :: rest := by
                  intro hc
                  rcases List.mem_cons.mp hc with h | h
                  · exact hvcur h
                  · exact hvq (List.mem_append.mpr (Or.inl h))
                exact cameHas_mono m _ nb (inv.closed v hvm hvq0 nb hnb hnbdrv)
            · exact absurd (List.mem_append.mpr (Or.inr hvnew)) hvq
        have hmeasure : (rest ++ new).length +
            2 * ((driveableCells g) \
              ((m ++ new.map (fun c => (c, some cur))).map Prod.fst).toFinset).card ≤
            fuel := by
          rw [hkeys]
          have hfin : (m.map Prod.fst ++ new).toFinset =
              (m.map Prod.fst).toFinset ∪ new.toFinset := List.toFinset_append
          rw [hfin]
          have hsub : new.toFinset ⊆
              (driveableCells g) \ (m.map Prod.fst).toFinset := by
            intro v hv
            rw [List.mem_toFinset] at hv
            obtain ⟨_, hdrv, hfresh⟩ := hfacts v hv
            refine Finset.mem_sdiff.mpr ⟨driveable_mem_driveableCells g v hdrv, ?_⟩
            rw [List.mem_toFinset]
            intro hc
            rw [(cameHas_iff_mem m v).mpr hc] at hfresh
            exact Bool.noConfusion hfresh
          have hsd : (driveableCells g) \
              ((m.map Prod.fst).toFinset ∪ new.toFinset) =
              ((driveableCells g) \ (m.map Prod.fst).toFinset) \ new.toFinset := by
            ext x
            simp only [Finset.mem_sdiff, Finset.mem_union]
            tauto
          rw [hsd, Finset.card_sdiff hsub, List.toFinset_card_of_nodup hnd]
          have hle : new.length ≤
              ((driveableCells g) \ (m.map Prod.fst).toFinset).card := by
            calc new.length = new.toFinset.card :=
                  (List.toFinset_card_of_nodup hnd).symm
              _ ≤ _ := Finset.card_le_card hsub
          have hfuel2 : rest.length + 1 +
              2 * ((driveableCells g) \ (m.map Prod.fst).toFinset).card ≤
              fuel + 1 := by
            simpa [List.length_cons] using hfuel
          rw [List.length_append]
          omega
        obtain ⟨hc, hcomp⟩ := ih (rest ++ new) (m ++ new.map (fun c => (c, some cur))) d2 hinvNew hmeasure
        exact ⟨hc, hcomp⟩

theorem loopInv_init (g : RoadGrid) (start : Coord) :
    LoopInv g start [start] [(start, none)] 0 := by
  have hget : ∀ v, cameGet [(start, (none : Option Coord))] v =
      if start = v then some none else none := by
    intro v
    by_cases h : start = v
    · simp [cameGet, List.find?, h]
    · have : (start == v) = false := by simpa using h
      simp [cameGet, List.find?, this, h]
  have hhas : ∀ v, cameHas [(start, (none : Option Coord))] v = true ↔ v = start := by
    intro v
    constructor
    · intro h
      simp only [cameHas, List.any_cons, List.any_nil, Bool.or_false, beq_iff_eq] at h
      exact h.symm
    · intro h
      subst h
      simp [cameHas]
  refine ⟨⟨?_, ?_, ?_, ?_, ?_⟩, ?_, ?_, ?_⟩
  · rw [hget]
    simp
  · simp
  · intro v hv
    rw [hget] at hv
    by_cases h : start = v
    · exact h.symm
    · rw [if_neg h] at hv
      exact Option.noConfusion hv
  · intro v p hv
    rw [hget] at hv
    by_cases h : start = v
    · rw [if_pos h] at hv
      exact absurd hv (by simp)
    · rw [if_neg h] at hv
      exact Option.noConfusion hv
  · intro v hv
    have hv' : v = start := (hhas v).mp hv
    subst hv'
    refine ⟨0, isMinReach_zero g v, ?_⟩
    intro p hp
    rw [hget, if_pos rfl] at hp
    exact absurd hp (by simp)
  · intro v hv
    rw [List.mem_singleton] at hv
    subst hv
    exact (hhas v).mpr rfl
  · refine ⟨[start], [], by simp, ?_, ?_⟩
    · intro v hv
      rw [List.mem_singleton] at hv
      rw [hv]
      exact isMinReach_zero g start
    · intro v hv
      exact absurd hv (List.not_mem_nil v)
  · intro v hv hvq
    exfalso
    exact hvq (by rw [(hhas v).mp hv]; exact List.mem_singleton.mpr rfl)

theorem measure_init (g : RoadGrid) (start : Coord) :
    [start].length + 2 * ((driveableCells g) \
      (([(start, (none : Option Coord))]).map Prod.fst).toFinset).card ≤ bfsFuel g := by
  have hsub : (driveableCells g) \ ({start} : Finset Coord) ⊆ driveableCells g :=
    Finset.sdiff_subset
  have hcard := Finset.card_le_card hsub
  simp only [List.length_singleton, List.map_cons, List.map_nil, bfsFuel,
    List.toFinset_cons, List.toFinset_nil, insert_emptyc_eq]
  omega

theorem chain_card (g : RoadGrid) (start : Coord) (m : Came)
    (inv : CameInv g start m) :
    ∀ n v, cameHas m v = true → isMinReach g start n v → n + 1 ≤ m.length := by
  have key : ∀ n v, cameHas m v = true → isMinReach g start n v →
      ∃ L : List Coord, L.Nodup ∧ L.length = n + 1 ∧
        ∀ c ∈ L, cameHas m c = true ∧ ∃ k, k ≤ n ∧ isMinReach g start k c := by
    intro n
    induction n with
    | zero =>
      intro v hv hmin
      refine ⟨[v], List.nodup_singleton v, rfl, ?_⟩
      intro c hc
      rw [List.mem_singleton] at hc
      subst hc
      exact ⟨hv, 0, le_rfl, hmin⟩
    | succ n ihn =>
      intro v hv hmin
      obtain ⟨val, hval⟩ := cameGet_isSome m v hv
      cases val with
      | none =>
        exfalso
        have hvs : v = start := inv.root v hval
        subst hvs
        have := reachN_start_eq_zero g v (n + 1) hmin
        omega
      | some p =>
        obtain ⟨hp_has, _, _⟩ := inv.parent v p hval
        obtain ⟨n0, hmin0, hpar⟩ := inv.depth v hv
        have hn0 : n0 = n + 1 := isMinReach_unique g start v n0 (n + 1) hmin0 hmin
        obtain ⟨k, hmink, hk⟩ := hpar p hval
        have hkn : n = k := by omega
        subst hkn
        obtain ⟨L, hLnd, hLlen, hLfacts⟩ := ihn p hp_has hmink
        have hvL : v ∉ L := by
          intro hc
          obtain ⟨_, k2, hk2, hmin2⟩ := hLfacts v hc
          have := isMinReach_unique g start v k2 (n + 1) hmin2 hmin
          omega
        refine ⟨v :: L, List.Nodup.cons hvL hLnd, by simp [hLlen], ?_⟩
        intro c hc
        rcases List.mem_cons.mp hc with hc | hc
        · subst hc
          exact ⟨hv, n + 1, le_rfl, hmin⟩
        · obtain ⟨h1, k2, hk2, h3⟩ := hLfacts c hc
          exact ⟨h1, k2, by omega, h3⟩
  intro n v hv hmin
  obtain ⟨L, hLnd, hLlen, hLfacts⟩ := key n v hv hmin
  have hsub : L.toFinset ⊆ (m.map Prod.fst).toFinset := by
    intro c hc
    rw [List.mem_toFinset] at hc
    rw [List.mem_toFinset, ← cameHas_iff_mem]
    exact (hLfacts c hc).1
  calc n + 1 = L.length := hLlen.symm
    _ = L.toFinset.card := (List.toFinset_card_of_nodup hLnd).symm
    _ ≤ (m.map Prod.fst).toFinset.card := Finset.card_le_card hsub
    _ ≤ (m.map Prod.fst).length := List.toFinset_card_le _
    _ = m.length := List.length_map m Prod.fst

theorem tail_reverse_eq (l : List Coord) :
    l.reverse.tail = l.dropLast.reverse := by
  induction l using List.reverseRecOn with
  | nil => rfl
  | append_singleton l a ih =>
    simp

theorem rebuild_spec (g : RoadGrid) (start : Coord) (m : Came)
    (inv : CameInv g start m) :
    ∀ (n : ℕ) (v : Coord) (acc : List Coord) (fuel : ℕ),
      cameHas m v = true → isMinReach g start n v → n + 1 ≤ fuel →
      ∃ L : List Coord, rebuildAux m fuel v acc = acc ++ L ∧
        L.head? = some v ∧ L.getLast? = some start ∧ L.length = n + 1 ∧
        List.Chain' (fun a b => a ∈ neighbors4 b ∧ is_driveable g a = true) L ∧
        (∀ c ∈ L.dropLast, is_driveable g c = true) := by
  intro n
  induction n with
  | zero =>
    intro v acc fuel hv hmin hfuel
    have hvs : v = start := hmin.1
    obtain ⟨val, hval⟩ := cameGet_isSome m v hv
    have hvalnone : val = none := by
      cases val with
      | none => rfl
      | some p =>
        exfalso
        obtain ⟨n0, hmin0, hpar⟩ := inv.depth v hv
        have h0 : n0 = 0 := isMinReach_unique g start v n0 0 hmin0 hmin
        obtain ⟨k, _, hk⟩ := hpar p hval
        omega
    subst hvalnone
    obtain ⟨f, rfl⟩ : ∃ f, fuel = f + 1 := ⟨fuel - 1, by omega⟩
    refine ⟨[v], ?_, rfl, by simp [hvs], rfl, List.chain'_singleton v, by simp⟩
    simp [rebuildAux, hval]
  | succ n ihn =>
    intro v acc fuel hv hmin hfuel
    obtain ⟨val, hval⟩ := cameGet_isSome m v hv
    cases val with
    | none =>
      exfalso
      have hvs : v = start := inv.root v hval
      subst hvs
      have := reachN_start_eq_zero g v (n + 1) hmin
      omega
    | some p =>
      obtain ⟨hp_has, hadj, hdrv⟩ := inv.parent v p hval
      obtain ⟨n0, hmin0, hpar⟩ := inv.depth v hv
      have hn0 : n0 = n + 1 := isMinReach_unique g start v n0 (n + 1) hmin0 hmin
      obtain ⟨k, hmink, hk⟩ := hpar p hval
      have hkn : n = k := by omega
      subst hkn
      obtain ⟨f, rfl⟩ : ∃ f, fuel = f + 1 := ⟨fuel - 1, by omega⟩
      obtain ⟨L, hLeq, hLhead, hLlast, hLlen, hLchain, hLdrv⟩ :=
        ihn p (acc ++ [v]) f hp_has hmink (by omega)
      have hLne : L ≠ [] := by
        intro hc
        rw [hc] at hLlen
        simp at hLlen
      have hstep : rebuildAux m (f + 1) v acc = rebuildAux m f p (acc ++ [v]) := by
        simp [rebuildAux, hval]
      refine ⟨v :: L, ?_, rfl, ?_, by simp [hLlen], ?_, ?_⟩
      · rw [hstep, hLeq, List.append_assoc]
        rfl
      · cases L with
        | nil => exact absurd rfl hLne
        | cons b t =>
          rw [List.getLast?_cons_cons]
          exact hLlast
      · cases L with
        | nil => exact absurd rfl hLne
        | cons b t =>
          have hbp : b = p := by simpa using hLhead
          subst hbp
          exact List.Chain'.cons ⟨hadj, hdrv⟩ hLchain
      · cases L with
        | nil => exact absurd rfl hLne
        | cons b t =>
          intro c hc
          rw [List.dropLast_cons₂] at hc
          rcases List.mem_cons.mp hc with hc | hc
          · subst hc
            exact hdrv
          · exact hLdrv c hc

theorem find_path_on_roads_spec (g : RoadGrid) (start goal : Coord) :
    (start = goal → find_path_on_roads g start goal = [start]) ∧
    (¬ Reachable g start goal → find_path_on_roads g start goal = []) ∧
    (Reachable g start goal → start ≠ goal →
      (find_path_on_roads g start goal).head? = some start ∧
      (find_path_on_roads g start goal).getLast? = some goal ∧
      List.Chain' (fun a b => b ∈ neighbors4 a) (find_path_on_roads g start goal) ∧
      (∀ c ∈ (find_path_on_roads g start goal).tail, is_driveable g c = true) ∧
      ReachN g start ((find_path_on_roads g start goal).length - 1) goal ∧
      (∀ k, ReachN g start k goal →
        (find_path_on_roads g start goal).length ≤ k + 1)) := by
  by_cases heq : start = goal
  · refine ⟨fun _ => ?_, fun h => ?_, fun _ hne => absurd heq hne⟩
    · simp [find_path_on_roads, heq]
    · exact absurd ⟨0, heq.symm⟩ h
  · have hbeq : (start == goal) = false := by simpa using heq
    obtain ⟨hCame, hComp⟩ := bfsAux_spec g start goal (bfsFuel g) [start]
      [(start, none)] 0 (loopInv_init g start) (measure_init g start)
    refine ⟨fun h => absurd h heq, ?_, ?_⟩
    · intro hnr
      have hh : cameHas (bfsAux g goal (bfsFuel g) [start] [(start, none)]) goal = false := by
        by_contra hc
        have hc' : cameHas (bfsAux g goal (bfsFuel g) [start] [(start, none)]) goal = true := by
          simpa using hc
        obtain ⟨n, hmin, _⟩ := hCame.depth goal hc'
        exact hnr ⟨n, hmin.1⟩
      simp [find_path_on_roads, hbeq, hh]
    · intro hr _
      have hh : cameHas (bfsAux g goal (bfsFuel g) [start] [(start, none)]) goal = true :=
        hComp hr
      obtain ⟨n, hmin, _⟩ := hCame.depth goal hh
      have hfuel : n + 1 ≤ (bfsAux g goal (bfsFuel g) [start] [(start, none)]).length :=
        chain_card g start _ hCame n goal hh hmin
      obtain ⟨L, hLeq, hhead, hlast, hlen, hchain, hdrv⟩ :=
        rebuild_spec g start _ hCame n goal []
          (bfsAux g goal (bfsFuel g) [start] [(start, none)]).length hh hmin hfuel
      have hfp : find_path_on_roads g start goal = L.reverse := by
        simp only [find_path_on_roads, hbeq, Bool.false_eq_true, if_false, hh,
          Bool.not_true]
        rw [hLeq, List.nil_append]
      rw [hfp]
      refine ⟨?_, ?_, ?_, ?_, ?_, ?_⟩
      · rw [List.head?_reverse]
        exact hlast
      · rw [List.getLast?_reverse]
        exact hhead
      · rw [List.chain'_reverse]
        exact List.Chain'.imp (fun a b hab => hab.1) hchain
      · intro c hc
        rw [tail_reverse_eq] at hc
        rw [List.mem_reverse] at hc
        exact hdrv c hc
      · rw [List.length_reverse, hlen]
        simpa using hmin.1
      · intro k hk
        rw [List.length_reverse, hlen]
        have := hmin.2 k hk
        omega

/-! ## Lemmas: dict get/set -/

theorem find?_cons_pair {κ α : Type} [BEq κ] (x : κ × α) (l : List (κ × α)) (k : κ) :
    (x :: l).find? (fun p => p.1 == k) =
      if x.1 == k then some x else l.find? (fun p => p.1 == k) := by
  cases h : (x.1 == k) with
  | true => simp [List.find?, h]
  | false => simp [List.find?, h]

theorem find?_map_set_self {κ α : Type} [BEq κ] [LawfulBEq κ]
    (l : List (κ × α)) (k : κ) (v : α)
    (h : l.any (fun p => p.1 == k) = true) :
    (l.map (fun p => if p.1 == k then (k, v) else p)).find? (fun p => p.1 == k) =
      some (k, v) := by
  induction l with
  | nil => simp at h
  | cons p l ih =>
    simp only [List.any_cons, Bool.or_eq_true] at h
    simp only [List.map_cons]
    by_cases hp : (p.1 == k) = true
    · rw [if_pos hp, find?_cons_pair]
      rw [if_pos (by simp)]
    · rw [if_neg hp, find?_cons_pair]
      rw [if_neg hp]
      apply ih
      rcases h with h | h
      · exact absurd h hp
      · exact h

theorem find?_map_set_other {κ α : Type} [BEq κ] [LawfulBEq κ]
    (l : List (κ × α)) (k k2 : κ) (v : α) (h : (k == k2) = false) :
    (l.map (fun p => if p.1 == k then (k, v) else p)).find? (fun p => p.1 == k2) =
      l.find? (fun p => p.1 == k2) := by
  induction l with
  | nil => rfl
  | cons p l ih =>
    simp only [List.map_cons]
    rw [find?_cons_pair, find?_cons_pair]
    by_cases hp : (p.1 == k) = true
    · rw [if_pos hp]
      have h2 : (p.1 == k2) = false := by
        have hpk : p.1 = k := by simpa using hp
        rw [hpk]
        exact h
      rw [if_neg (by simp [h]), if_neg (by simp [h2])]
      exact ih
    · rw [if_neg hp]
      by_cases hq : (p.1 == k2) = true
      · rw [if_pos hq, if_pos hq]
      · rw [if_neg hq, if_neg hq]
        exact ih

theorem any_eq_false_find?_none {κ α : Type} [BEq κ]
    (l : List (κ × α)) (k : κ) (h : l.any (fun p => p.1 == k) = false) :
    l.find? (fun p => p.1 == k) = none := by
  rw [List.find?_eq_none]
  intro x hx
  by_contra hpx
  have hpx2 : (x.1 == k) = true := by simpa using hpx
  have : l.any (fun p => p.1 == k) = true := List.any_eq_true.mpr ⟨x, hx, hpx2⟩
  rw [this] at h
  exact Bool.noConfusion h

theorem sget_sset_self (r : Storage) (k : String) (v : ℚ) :
    sget (sset r k v) k = v := by
  unfold sset
  by_cases h : r.any (fun p => p.1 == k) = true
  · rw [if_pos h]
    unfold sget
    rw [find?_map_set_self r k v h]
  · rw [if_neg h]
    unfold sget
    rw [List.find?_append, any_eq_false_find?_none r k (Bool.eq_false_iff.mpr h)]
    simp [List.find?]

theorem sget_sset_other (r : Storage) (k k2 : String) (v : ℚ) (h : ¬ k = k2) :
    sget (sset r k v) k2 = sget r k2 := by
  have hb : (k == k2) = false := by simpa using h
  unfold sset
  by_cases ha : r.any (fun p => p.1 == k) = true
  · rw [if_pos ha]
    unfold sget
    rw [find?_map_set_other r k k2 v hb]
  · rw [if_neg ha]
    unfold sget
    rw [List.find?_append]
    have : ([(k, v)] : Storage).find? (fun p => p.1 == k2) = none := by
      simp [List.find?, hb]
    rw [this]
    cases r.find? (fun p => p.1 == k2) <;> rfl

theorem gridGet_gridSet_self (g : RoadGrid) (c : Coord) (v : ℕ) :
    gridGet (gridSet g c v) c = v := by
  unfold gridSet
  by_cases h : g.any (fun p => p.1 == c) = true
  · rw [if_pos h]
    unfold gridGet
    rw [find?_map_set_self g c v h]
  · rw [if_neg h]
    unfold gridGet
    rw [List.find?_append, any_eq_false_find?_none g c (Bool.eq_false_iff.mpr h)]
    simp [List.find?]

theorem gridGet_gridSet_other (g : RoadGrid) (c c2 : Coord) (v : ℕ)
    (h : ¬ c = c2) : gridGet (gridSet g c v) c2 = gridGet g c2 := by
  have hb : (c == c2) = false := by simpa using h
  unfold gridSet
  by_cases ha : g.any (fun p => p.1 == c) = true
  · rw [if_pos ha]
    unfold gridGet
    rw [find?_map_set_other g c c2 v hb]
  · rw [if_neg ha]
    unfold gridGet
    rw [List.find?_append]
    have : ([(c, v)] : RoadGrid).find? (fun p => p.1 == c2) = none := by
      simp [List.find?, hb]
    rw [this]
    cases g.find? (fun p => p.1 == c2) <;> rfl

/-! ## Lemmas: truncation -/

theorem pyInt_nonneg (q : ℚ) (h : 0 ≤ q) : 0 ≤ pyInt q := by
  unfold pyInt
  rw [if_neg (by linarith)]
  exact Int.floor_nonneg.mpr h

theorem pyInt_le (q : ℚ) (h : 0 ≤ q) : (pyInt q : ℚ) ≤ q := by
  unfold pyInt
  rw [if_neg (by linarith)]
  exact_mod_cast Int.floor_le q

theorem pyInt_pos_nonneg (q : ℚ) (h : 0 < pyInt q) : (0 : ℚ) ≤ (pyInt q : ℚ) := by
  exact_mod_cast le_of_lt h

/-! ## Lemmas: shapes of the truck routines -/

theorem routeToDest_fst (w : Game) (t : Truck) : (routeToDest w t).1 = w := by
  unfold routeToDest
  rcases t.dest_cell with _ | dest
  · rfl
  · dsimp only
    split <;> (repeat' split) <;> rfl

theorem routeToDest_snd (w : Game) (t : Truck) :
    (routeToDest w t).2 = t ∨
      ∃ p, (routeToDest w t).2 = { t with path_cells := p, state := "to_dest" } := by
  unfold routeToDest
  rcases t.dest_cell with _ | dest
  · exact Or.inl rfl
  · dsimp only
    split <;> (repeat' split) <;>
      first
        | exact Or.inl rfl
        | exact Or.inr ⟨_, rfl⟩

theorem repeatOrIdle_fst (w : Game) (t : Truck) : (repeatOrIdle w t).1 = w := by
  unfold repeatOrIdle
  split
  · split
    · split
      · dsimp only
        split
        · rfl
        · rfl
      · rfl
    · rfl
  · rfl

theorem repeatOrIdle_snd (w : Game) (t : Truck) :
    (repeatOrIdle w t).2 =
        { t with state := "idle", cargo_type := none, dest_cell := none } ∨
      ∃ p, (repeatOrIdle w t).2 = { t with path_cells := p, state := "to_source", cargo_type := t.saved_resource, dest_cell := t.saved_dest } := by
  unfold repeatOrIdle
  split
  · split
    · split
      · dsimp only
        split
        · exact Or.inr ⟨_, rfl⟩
        · exact Or.inl rfl
      · exact Or.inl rfl
    · exact Or.inl rfl
  · exact Or.inl rfl

/-! ## Lemmas: the truck invariant (claim C5) -/

theorem truckInv_congr (t t' : Truck) (h : TruckInv t)
    (hca : t'.cargo_amount = t.cargo_amount)
    (hcc : t'.cargo_capacity = t.cargo_capacity)
    (hs : t'.state = t.state) (hwt : t'.waiting_target = t.waiting_target) :
    TruckInv t' := by
  obtain ⟨h1, h2, h3⟩ := h
  refine ⟨hca ▸ h1, ?_, ?_⟩
  · rw [hca, hcc]
    exact h2
  · rw [hs, hwt, hcc]
    exact h3

theorem truckInv_load_add (t : Truck) (h : TruckInv t) (x avail : ℚ)
    (hx : 0 < min x (min avail (t.cargo_capacity - t.cargo_amount))) :
    TruckInv { t with cargo_amount :=
      t.cargo_amount + min x (min avail (t.cargo_capacity - t.cargo_amount)) } := by
  obtain ⟨h1, h2, h3⟩ := h
  have hle : min x (min avail (t.cargo_capacity - t.cargo_amount)) ≤
      t.cargo_capacity - t.cargo_amount :=
    le_trans (min_le_right _ _) (min_le_right _ _)
  refine ⟨?_, ?_, ?_⟩
  · show 0 ≤ t.cargo_amount + _
    linarith
  · show t.cargo_amount + _ ≤ t.cargo_capacity
    linarith
  · intro hs
    exact h3 hs

theorem truckInv_zero_cargo (t : Truck) (h : TruckInv t) :
    TruckInv { t with cargo_amount := 0 } := by
  obtain ⟨h1, h2, h3⟩ := h
  refine ⟨le_refl 0, ?_, fun hs => h3 hs⟩
  show (0 : ℚ) ≤ t.cargo_capacity
  linarith

theorem truckInv_state_nonwaiting (t t' : Truck) (h : TruckInv t)
    (hca : t'.cargo_amount = t.cargo_amount)
    (hcc : t'.cargo_capacity = t.cargo_capacity)
    (hs : t'.state ≠ "waiting_for_bmats") : TruckInv t' := by
  obtain ⟨h1, h2, _⟩ := h
  refine ⟨hca ▸ h1, ?_, fun hw => absurd hw hs⟩
  rw [hca, hcc]
  exact h2

theorem truckInv_routeToDest (w : Game) (t : Truck) (h : TruckInv t) :
    TruckInv (routeToDest w t).2 := by
  rcases routeToDest_snd w t with heq | ⟨p, heq⟩
  · rw [heq]
    exact h
  · rw [heq]
    exact truckInv_state_nonwaiting t _ h rfl rfl (by simp)

theorem truckInv_repeatOrIdle (w : Game) (t : Truck) (h : TruckInv t) :
    TruckInv (repeatOrIdle w t).2 := by
  rcases repeatOrIdle_snd w t with heq | ⟨p, heq⟩ <;> rw [heq] <;>
    exact truckInv_state_nonwaiting t _ h rfl rfl (by simp)

set_option maxHeartbeats 2000000 in
theorem truckInv_waitingStep (w : Game) (t : Truck) (h : TruckInv t)
    (hst : t.state = "waiting_for_bmats") : TruckInv (waitingStep w t).2 := by
  obtain ⟨wt, hwt, hwt0, hwtcap⟩ := h.2.2 hst
  unfold waitingStep
  split
  · exact h
  · split
    · split
      · try dsimp only
        rw [hwt]
        simp only [Option.getD_some]
        split
        · split
          · try dsimp only
            split
            · exact ⟨hwt0, hwtcap, fun hs => absurd hs (by simp)⟩
            · exact ⟨hwt0, hwtcap, fun hs => absurd hs (by simp)⟩
          · exact ⟨hwt0, hwtcap, fun hs => absurd hs (by simp)⟩
        · exact h
      · exact h
    · exact h

set_option maxHeartbeats 1000000 in
theorem truckInv_loadAndRoute (w : Game) (t : Truck) (src : Coord)
    (b : Building) (h : TruckInv t) : TruckInv (loadAndRoute w t src b).2 := by
  unfold loadAndRoute
  split
  · -- wood
    split
    · dsimp only
      split
      · exact truckInv_routeToDest _ _ (truckInv_load_add t h 5 _ (by assumption))
      · exact truckInv_routeToDest _ _ h
    · dsimp only
      split <;> split
      · exact truckInv_routeToDest _ _ (truckInv_load_add t h 5 _ (by assumption))
      · exact truckInv_routeToDest _ _ h
      · exact truckInv_routeToDest _ _ (truckInv_load_add t h 5 _ (by assumption))
      · exact truckInv_routeToDest _ _ h
  · split
    · -- stone
      split
      · dsimp only
        split
        · refine truckInv_routeToDest _ _ ?_
          have hinv1 := truckInv_load_add t h 5 _ (by assumption)
          split
          · split
            · split
              · exact hinv1
              · exact hinv1
            · exact hinv1
          · exact hinv1
        · exact truckInv_routeToDest _ _ h
      · dsimp only
        split <;> split
        · -- quarry building, loaded
          have hinv1 := truckInv_load_add t h 5 _ (by assumption)
          split
          · split
            · split
              · try dsimp only
                split
                · exact truckInv_state_nonwaiting _ _ hinv1 rfl rfl (by simp)
                · exact truckInv_routeToDest _ _ hinv1
              · exact truckInv_routeToDest _ _ hinv1
            · exact truckInv_routeToDest _ _ hinv1
          · exact truckInv_routeToDest _ _ hinv1
        · exact truckInv_routeToDest _ _ h
        · -- not a quarry, loaded (zero available cannot load, but keep the case)
          have hinv1 := truckInv_load_add t h 5 _ (by assumption)
          split
          · split
            · split
              · try dsimp only
                split
                · exact truckInv_state_nonwaiting _ _ hinv1 rfl rfl (by simp)
                · exact truckInv_routeToDest _ _ hinv1
              · exact truckInv_routeToDest _ _ hinv1
            · exact truckInv_routeToDest _ _ hinv1
          · exact truckInv_routeToDest _ _ hinv1
        · exact truckInv_routeToDest _ _ h
    · split
      · -- bmats
        split
        · dsimp only
          split
          · exact truckInv_routeToDest _ _ (truckInv_load_add t h 5 _ (by assumption))
          · exact truckInv_routeToDest _ _ h
        · dsimp only
          split <;> split
          · exact truckInv_routeToDest _ _ (truckInv_load_add t h 5 _ (by assumption))
          · exact truckInv_routeToDest _ _ h
          · exact truckInv_routeToDest _ _ (truckInv_load_add t h 5 _ (by assumption))
          · exact truckInv_routeToDest _ _ h
      · -- unknown cargo type
        dsimp only
        split
        · exact truckInv_routeToDest _ _ h
        · split
          · exact truckInv_routeToDest _ _ h
          · split
            · exact truckInv_routeToDest _ _ h
            · exact truckInv_routeToDest _ _ h

set_option maxHeartbeats 1000000 in
theorem truckInv_toDestArrival (w : Game) (t : Truck) (h : TruckInv t) :
    TruckInv (toDestArrival w t).2 := by
  have hzero := truckInv_zero_cargo t h
  unfold toDestArrival
  split
  · exact truckInv_state_nonwaiting t _ h rfl rfl (by simp)
  · split
    · split
      · dsimp only
        split
        · exact truckInv_repeatOrIdle _ _ hzero
        · exact truckInv_repeatOrIdle _ _ h
      · split
        · split
          · dsimp only
            split
            · exact ⟨le_refl 0, le_trans h.1 h.2.1, fun _ =>
                ⟨(pyInt t.cargo_amount : ℚ), rfl, pyInt_pos_nonneg _ (by assumption),
                  le_trans (pyInt_le _ h.1) h.2.1⟩⟩
            · exact truckInv_repeatOrIdle _ _ hzero
          · split
            · exact truckInv_repeatOrIdle _ _ hzero
            · exact truckInv_repeatOrIdle _ _ h
        · exact truckInv_repeatOrIdle _ _ h
    · split
      · split
        · dsimp only
          split
          · exact truckInv_repeatOrIdle _ _ (truckInv_load_add t h 5 _ (by assumption))
          · exact truckInv_state_nonwaiting t _ h rfl rfl (by simp)
        · exact truckInv_repeatOrIdle _ _ h
      · exact truckInv_repeatOrIdle _ _ h

theorem truckInv_on_truck_arrival (w : Game) (t : Truck) (h : TruckInv t) :
    TruckInv (on_truck_arrival w t).2 := by
  unfold on_truck_arrival
  split
  · split
    · exact truckInv_state_nonwaiting t _ h rfl rfl (by simp)
    · split
      · split
        · exact truckInv_state_nonwaiting t _ h rfl rfl (by simp)
        · exact truckInv_loadAndRoute _ _ _ _ h
      · exact h
  · split
    · next hw =>
      exact truckInv_waitingStep w t h (by simpa using hw)
    · split
      · exact truckInv_toDestArrival w t h
      · exact h

theorem truckInv_update_truck (w : Game) (t : Truck) (dt : ℚ) (h : TruckInv t) :
    TruckInv (update_truck w t dt).2 := by
  unfold update_truck
  split
  · exact h
  · dsimp only
    split
    · split
      · exact truckInv_on_truck_arrival _ _ h
      · exact h
    · split
      · exact h
      · exact h

theorem truckInv_fold (dt : ℚ) : ∀ (ts : List Truck) (core : Game)
    (acc : List Truck), (∀ t ∈ ts, TruckInv t) → (∀ t ∈ acc, TruckInv t) →
    ∀ t' ∈ (ts.foldl
      (fun (a : Game × List Truck) t =>
        let s := update_truck a.1 t dt
        (s.1, a.2 ++ [s.2])) (core, acc)).2, TruckInv t' := by
  intro ts
  induction ts with
  | nil =>
    intro core acc _ hacc t' ht'
    simpa using hacc t' (by simpa using ht')
  | cons t ts ih =>
    intro core acc hts hacc t' ht'
    rw [List.foldl_cons] at ht'
    refine ih _ _ (fun x hx => hts x (List.mem_cons_of_mem t hx)) ?_ t' ht'
    intro x hx
    rcases List.mem_append.mp hx with hx | hx
    · exact hacc x hx
    · rw [List.mem_singleton] at hx
      subst hx
      exact truckInv_update_truck core t dt (hts t (List.mem_cons_self t ts))

theorem truckInv_update (w : World) (dt : ℚ)
    (hall : ∀ t ∈ w.trucks, TruckInv t) :
    ∀ t' ∈ (update w dt).trucks, TruckInv t' := by
  intro t' ht'
  unfold update at ht'
  exact truckInv_fold dt w.trucks (updateProduction w.core dt) [] hall
    (fun x hx => absurd hx (List.not_mem_nil x)) t' ht'

/-! ## Lemmas: the resource pool (claims C8, C10) -/

theorem resIntegral_sset (r : Storage) (k : String) (v : ℚ)
    (h : ResIntegral r) (hv : ∃ z : ℤ, v = (z : ℚ)) :
    ResIntegral (sset r k v) := by
  intro k2
  by_cases hk : k = k2
  · subst hk
    rw [sget_sset_self]
    exact hv
  · rw [sget_sset_other r k k2 v hk]
    exact h k2

theorem resNonneg_sset (r : Storage) (k : String) (v : ℚ)
    (h : ResNonneg r) (hv : 0 ≤ v) : ResNonneg (sset r k v) := by
  intro k2
  by_cases hk : k = k2
  · subst hk
    rw [sget_sset_self]
    exact hv
  · rw [sget_sset_other r k k2 v hk]
    exact h k2

theorem resources_waitingStep (w : Game) (t : Truck) :
    (waitingStep w t).1.resources = w.resources := by
  unfold waitingStep
  split
  · rfl
  · split
    · split
      · try dsimp only
        split
        · split
          · try dsimp only
            split
            · rfl
            · rfl
          · rfl
        · rfl
      · rfl
    · rfl

theorem resources_loadAndRoute (w : Game) (t : Truck) (src : Coord)
    (b : Building) (hsrc : src ≠ w.base_cell) :
    (loadAndRoute w t src b).1.resources = w.resources := by
  unfold loadAndRoute
  split
  · split
    · next hb => exact absurd (by simpa using hb) hsrc
    · try dsimp only
      split <;> split <;> rw [routeToDest_fst]
  · split
    · split
      · next hb => exact absurd (by simpa using hb) hsrc
      · try dsimp only
        split <;> split
        · split
          · split
            · split
              · try dsimp only
                split
                · rfl
                · rw [routeToDest_fst]
              · rw [routeToDest_fst]
            · rw [routeToDest_fst]
          · rw [routeToDest_fst]
        · rw [routeToDest_fst]
        · split
          · split
            · split
              · try dsimp only
                split
                · rfl
                · rw [routeToDest_fst]
              · rw [routeToDest_fst]
            · rw [routeToDest_fst]
          · rw [routeToDest_fst]
        · rw [routeToDest_fst]
    · split
      · split
        · next hb => exact absurd (by simpa using hb) hsrc
        · try dsimp only
          split <;> split <;> rw [routeToDest_fst]
      · try dsimp only
        split
        · rw [routeToDest_fst]
        · split
          · rw [routeToDest_fst]
          · split
            · rw [routeToDest_fst]
            · rw [routeToDest_fst]

theorem resIntegral_toDestArrival (w : Game) (t : Truck)
    (hInt : ResIntegral w.resources) (hcap : t.cargo_capacity = 20) :
    ResIntegral (toDestArrival w t).1.resources := by
  unfold toDestArrival
  split
  · exact hInt
  · split
    · split
      · try dsimp only
        rw [repeatOrIdle_fst]
        split
        · refine resIntegral_sset _ _ _ hInt ?_
          obtain ⟨z, hz⟩ := hInt (t.cargo_type.getD "")
          refine ⟨z + pyInt t.cargo_amount, ?_⟩
          rw [hz]
          push_cast
          ring
        · exact hInt
      · split
        · split
          · try dsimp only
            split
            · exact hInt
            · rw [repeatOrIdle_fst]
              exact hInt
          · split
            · rw [repeatOrIdle_fst]
              refine resIntegral_sset _ _ _ hInt ?_
              obtain ⟨z, hz⟩ := hInt (t.cargo_type.getD "")
              refine ⟨z + pyInt t.cargo_amount, ?_⟩
              rw [hz]
              push_cast
              ring
            · rw [repeatOrIdle_fst]
              exact hInt
        · rw [repeatOrIdle_fst]
          exact hInt
    · split
      · split
        · try dsimp only
          split
          · rename_i hguard hbarea hload
            have hc0 : t.cargo_amount = 0 := by
              simp only [Bool.and_eq_true, beq_iff_eq] at hguard
              exact hguard.2
            rw [repeatOrIdle_fst]
            refine resIntegral_sset _ _ _ hInt ?_
            obtain ⟨z, hz⟩ := hInt "stone"
            refine ⟨max 0 (z - min 5 (min z 20)), ?_⟩
            rw [hz, hcap, hc0]
            push_cast
            norm_num
          · exact hInt
        · rw [repeatOrIdle_fst]
          exact hInt
      · rw [repeatOrIdle_fst]
        exact hInt

theorem resNonneg_toDestArrival (w : Game) (t : Truck)
    (hNon : ResNonneg w.resources) (h0 : 0 ≤ t.cargo_amount) :
    ResNonneg (toDestArrival w t).1.resources := by
  have hdel : (0 : ℚ) ≤ (pyInt t.cargo_amount : ℚ) := by
    exact_mod_cast pyInt_nonneg _ h0
  unfold toDestArrival
  split
  · exact hNon
  · split
    · split
      · try dsimp only
        rw [repeatOrIdle_fst]
        split
        · exact resNonneg_sset _ _ _ hNon (add_nonneg (hNon _) hdel)
        · exact hNon
      · split
        · split
          · try dsimp only
            split
            · exact hNon
            · rw [repeatOrIdle_fst]
              exact hNon
          · split
            · rw [repeatOrIdle_fst]
              exact resNonneg_sset _ _ _ hNon (add_nonneg (hNon _) hdel)
            · rw [repeatOrIdle_fst]
              exact hNon
        · rw [repeatOrIdle_fst]
          exact hNon
    · split
      · split
        · try dsimp only
          split
          · rw [repeatOrIdle_fst]
            exact resNonneg_sset _ _ _ hNon (le_max_left 0 _)
          · exact hNon
        · rw [repeatOrIdle_fst]
          exact hNon
      · rw [repeatOrIdle_fst]
        exact hNon

theorem resIntegral_on_truck_arrival (w : Game) (t : Truck)
    (hBase : NoBuildingAtBase w) (hInt : ResIntegral w.resources)
    (hcap : t.cargo_capacity = 20) :
    ResIntegral (on_truck_arrival w t).1.resources := by
  unfold on_truck_arrival
  split
  · split
    · exact hInt
    · split
      · split
        · exact hInt
        · rename_i x0 src_cell heqs hcur hob src_building heqb
          have hsrc : src_cell ≠ w.base_cell := by
            intro hc
            rw [hc] at heqb
            unfold NoBuildingAtBase at hBase
            rw [hBase] at heqb
            exact Option.noConfusion heqb
          rw [resources_loadAndRoute w t src_cell src_building hsrc]
          exact hInt
      · exact hInt
  · split
    · rw [resources_waitingStep]
      exact hInt
    · split
      · exact resIntegral_toDestArrival w t hInt hcap
      · exact hInt

theorem resNonneg_on_truck_arrival (w : Game) (t : Truck)
    (hBase : NoBuildingAtBase w) (hNon : ResNonneg w.resources)
    (h0 : 0 ≤ t.cargo_amount) :
    ResNonneg (on_truck_arrival w t).1.resources := by
  unfold on_truck_arrival
  split
  · split
    · exact hNon
    · split
      · split
        · exact hNon
        · rename_i x0 src_cell heqs hcur hob src_building heqb
          have hsrc : src_cell ≠ w.base_cell := by
            intro hc
            rw [hc] at heqb
            unfold NoBuildingAtBase at hBase
            rw [hBase] at heqb
            exact Option.noConfusion heqb
          rw [resources_loadAndRoute w t src_cell src_building hsrc]
          exact hNon
      · exact hNon
  · split
    · rw [resources_waitingStep]
      exact hNon
    · split
      · exact resNonneg_toDestArrival w t hNon h0
      · exact hNon

theorem resIntegral_update_truck (w : Game) (t : Truck) (dt : ℚ)
    (hBase : NoBuildingAtBase w) (hInt : ResIntegral w.resources)
    (hcap : t.cargo_capacity = 20) :
    ResIntegral (update_truck w t dt).1.resources := by
  unfold update_truck
  split
  · exact hInt
  · dsimp only
    split
    · split
      · exact resIntegral_on_truck_arrival w _ hBase hInt hcap
      · exact hInt
    · split
      · exact hInt
      · exact hInt

theorem resNonneg_update_truck (w : Game) (t : Truck) (dt : ℚ)
    (hBase : NoBuildingAtBase w) (hNon : ResNonneg w.resources)
    (h0 : 0 ≤ t.cargo_amount) :
    ResNonneg (update_truck w t dt).1.resources := by
  unfold update_truck
  split
  · exact hNon
  · dsimp only
    split
    · split
      · exact resNonneg_on_truck_arrival w _ hBase hNon h0
      · exact hNon
    · split
      · exact hNon
      · exact hNon

theorem resIntegral_paint_cell (w : Game) (c : Coord)
    (hInt : ResIntegral w.resources) :
    ResIntegral (paint_cell w c).resources := by
  unfold paint_cell
  split
  · exact hInt
  · split
    · exact hInt
    · refine resIntegral_sset _ _ _ hInt ?_
      obtain ⟨z, hz⟩ := hInt "bmats"
      refine ⟨z - 1, ?_⟩
      rw [hz]
      push_cast
      ring

theorem resNonneg_paint_cell (w : Game) (c : Coord)
    (hInt : ResIntegral w.resources) (hNon : ResNonneg w.resources) :
    ResNonneg (paint_cell w c).resources := by
  unfold paint_cell
  split
  · exact hNon
  · split
    · exact hNon
    · rename_i hocc hpos
      refine resNonneg_sset _ _ _ hNon ?_
      obtain ⟨z, hz⟩ := hInt "bmats"
      rw [hz] at hpos ⊢
      have hz1 : 1 ≤ z := by
        by_contra hzc
        exact hpos (by exact_mod_cast Int.lt_add_one_iff.mp (by omega))
      have : (1 : ℚ) ≤ (z : ℚ) := by exact_mod_cast hz1
      linarith

theorem spawn_truck_core (w : World) :
    (spawn_truck_at_base w).core = w.core := rfl

theorem resIntegral_build_new_truck (w : World)
    (hInt : ResIntegral w.core.resources) :
    ResIntegral (build_new_truck w).core.resources := by
  unfold build_new_truck
  dsimp only
  split
  · rw [spawn_truck_core]
    refine resIntegral_sset _ _ _ hInt ?_
    obtain ⟨z, hz⟩ := hInt "bmats"
    refine ⟨z - (get_truck_cost w.trucks_built : ℤ), ?_⟩
    rw [hz]
    push_cast
    ring
  · exact hInt

theorem resNonneg_build_new_truck (w : World)
    (hNon : ResNonneg w.core.resources) :
    ResNonneg (build_new_truck w).core.resources := by
  unfold build_new_truck
  dsimp only
  split
  · rename_i hcost
    rw [spawn_truck_core]
    refine resNonneg_sset _ _ _ hNon ?_
    linarith
  · exact hNon

theorem resources_updateProduction (w : Game) (dt : ℚ) :
    (updateProduction w dt).resources = w.resources := rfl

theorem stepBuilding_of_disconnected (w : Game) (dt : ℚ) (b : Building)
    (hc : is_cell_connected_to_base_by_roads w.road_grid w.base_cell b.cell = false) :
    stepBuilding w dt b = b := by
  unfold stepBuilding
  split
  · rfl
  · rfl

theorem building_any_false_none (bs : List Building) (c : Coord)
    (h : bs.any (fun b => b.cell == c) = false) :
    bs.find? (fun b => b.cell == c) = none := by
  rw [List.find?_eq_none]
  intro x hx
  by_contra hpx
  have hpx2 : (x.cell == c) = true := by simpa using hpx
  have : bs.any (fun b => b.cell == c) = true := List.any_eq_true.mpr ⟨x, hx, hpx2⟩
  rw [this] at h
  exact Bool.noConfusion h

theorem resIntegral_of_values (r : Storage)
    (h : ∀ p ∈ r, ∃ z : ℤ, p.2 = (z : ℚ)) : ResIntegral r := by
  intro k
  unfold sget
  cases hf : r.find? (fun p => p.1 == k) with
  | none => exact ⟨0, rfl⟩
  | some p => exact h p (List.mem_of_find?_eq_some hf)

theorem resNonneg_of_values (r : Storage)
    (h : ∀ p ∈ r, 0 ≤ p.2) : ResNonneg r := by
  intro k
  unfold sget
  cases hf : r.find? (fun p => p.1 == k) with
  | none => exact le_refl 0
  | some p => exact h p (List.mem_of_find?_eq_some hf)

theorem initResources_integral : ResIntegral initResources := by
  refine resIntegral_of_values _ ?_
  intro p hp
  simp only [initResources, List.mem_cons, List.not_mem_nil, or_false] at hp
  rcases hp with h | h | h | h | h <;> subst h <;>
    first
      | exact ⟨0, rfl⟩
      | exact ⟨10, rfl⟩

theorem initResources_nonneg : ResNonneg initResources := by
  refine resNonneg_of_values _ ?_
  intro p hp
  simp only [initResources, List.mem_cons, List.not_mem_nil, or_false] at hp
  rcases hp with h | h | h | h | h <;> subst h <;> norm_num

theorem stepBuilding_refinery_fire (w : Game) (dt : ℚ) (b : Building)
    (hrate : ¬ b.production_rate_per_sec ≤ 0)
    (hconn : is_cell_connected_to_base_by_roads w.road_grid w.base_cell b.cell = true)
    (hty : b.type = "refinery")
    (hstone : 0 < sget b.storage "stone")
    (htimer : 5 ≤ b.conversion_timer.getD 0 + dt) :
    stepBuilding w dt b = { b with
      storage := sset (sset b.storage "stone" (sget b.storage "stone" - 1)) "bmats"
        (sget (sset b.storage "stone" (sget b.storage "stone" - 1)) "bmats" + 1),
      conversion_timer := some 0 } := by
  have hcn : ¬ (is_cell_connected_to_base_by_roads w.road_grid w.base_cell b.cell = false) := by
    rw [hconn]
    simp
  have hl : ¬ ((b.type == "lumber") = true) := by
    rw [hty]
    decide
  have hq : ¬ ((b.type == "quarry") = true) := by
    rw [hty]
    decide
  have hrf : (b.type == "refinery") = true := by
    rw [hty]
    decide
  unfold stepBuilding
  rw [if_neg hrate, if_neg hcn, if_neg hl, if_neg hq, if_pos hrf]
  dsimp only
  rw [if_pos hstone, if_pos htimer]

theorem stepBuilding_refinery_wait (w : Game) (dt : ℚ) (b : Building)
    (hrate : ¬ b.production_rate_per_sec ≤ 0)
    (hconn : is_cell_connected_to_base_by_roads w.road_grid w.base_cell b.cell = true)
    (hty : b.type = "refinery")
    (hstone : 0 < sget b.storage "stone")
    (htimer : ¬ 5 ≤ b.conversion_timer.getD 0 + dt) :
    stepBuilding w dt b =
      { b with conversion_timer := some (b.conversion_timer.getD 0 + dt) } := by
  have hcn : ¬ (is_cell_connected_to_base_by_roads w.road_grid w.base_cell b.cell = false) := by
    rw [hconn]
    simp
  have hl : ¬ ((b.type == "lumber") = true) := by
    rw [hty]
    decide
  have hq : ¬ ((b.type == "quarry") = true) := by
    rw [hty]
    decide
  have hrf : (b.type == "refinery") = true := by
    rw [hty]
    decide
  unfold stepBuilding
  rw [if_neg hrate, if_neg hcn, if_neg hl, if_neg hq, if_pos hrf]
  dsimp only
  rw [if_pos hstone, if_neg htimer]

theorem stepBuilding_refinery_empty (w : Game) (dt : ℚ) (b : Building)
    (hrate : ¬ b.production_rate_per_sec ≤ 0)
    (hconn : is_cell_connected_to_base_by_roads w.road_grid w.base_cell b.cell = true)
    (hty : b.type = "refinery")
    (hstone : ¬ 0 < sget b.storage "stone") :
    stepBuilding w dt b = b := by
  have hcn : ¬ (is_cell_connected_to_base_by_roads w.road_grid w.base_cell b.cell = false) := by
    rw [hconn]
    simp
  have hl : ¬ ((b.type == "lumber") = true) := by
    rw [hty]
    decide
  have hq : ¬ ((b.type == "quarry") = true) := by
    rw [hty]
    decide
  have hrf : (b.type == "refinery") = true := by
    rw [hty]
    decide
  unfold stepBuilding
  rw [if_neg hrate, if_neg hcn, if_neg hl, if_neg hq, if_pos hrf]
  dsimp only
  rw [if_neg hstone]

theorem stepC3_1 : stepBuilding worldC3.core 5 refineryC3 = refineryC3b := by
  rw [stepBuilding_refinery_fire worldC3.core 5 refineryC3
    (by show ¬ (0.2 : ℚ) ≤ 0; norm_num)
    (by decide) rfl
    (by rw [show sget refineryC3.storage "stone" = 3 from rfl]; norm_num)
    (by rw [show refineryC3.conversion_timer.getD 0 = (0 : ℚ) from rfl]; norm_num)]
  rw [show sget refineryC3.storage "stone" = 3 from rfl]
  rw [show sset refineryC3.storage "stone" ((3 : ℚ) - 1) =
    [("stone", (3 : ℚ) - 1), ("bmats", 0)] from rfl]
  rw [show sget [("stone", (3 : ℚ) - 1), ("bmats", (0 : ℚ))] "bmats" = 0 from rfl]
  rw [show ((3 : ℚ) - 1) = 2 from by norm_num]
  rw [show ((0 : ℚ) + 1) = 1 from by norm_num]
  rfl

theorem stepC3_2 : stepBuilding worldC3b.core 5 refineryC3b = refineryC3c := by
  rw [stepBuilding_refinery_fire worldC3b.core 5 refineryC3b
    (by show ¬ (0.2 : ℚ) ≤ 0; norm_num)
    (by decide) rfl
    (by rw [show sget refineryC3b.storage "stone" = 2 from rfl]; norm_num)
    (by rw [show refineryC3b.conversion_timer.getD 0 = (0 : ℚ) from rfl]; norm_num)]
  rw [show sget refineryC3b.storage "stone" = 2 from rfl]
  rw [show sset refineryC3b.storage "stone" ((2 : ℚ) - 1) =
    [("stone", (2 : ℚ) - 1), ("bmats", 1)] from rfl]
  rw [show sget [("stone", (2 : ℚ) - 1), ("bmats", (1 : ℚ))] "bmats" = 1 from rfl]
  rw [show ((2 : ℚ) - 1) = 1 from by norm_num]
  rw [show ((1 : ℚ) + 1) = 2 from by norm_num]
  rfl

theorem stepC3_3 : stepBuilding worldC3c.core 5 refineryC3c = refineryC3d := by
  rw [stepBuilding_refinery_fire worldC3c.core 5 refineryC3c
    (by show ¬ (0.2 : ℚ) ≤ 0; norm_num)
    (by decide) rfl
    (by rw [show sget refineryC3c.storage "stone" = 1 from rfl]; norm_num)
    (by rw [show refineryC3c.conversion_timer.getD 0 = (0 : ℚ) from rfl]; norm_num)]
  rw [show sget refineryC3c.storage "stone" = 1 from rfl]
  rw [show sset refineryC3c.storage "stone" ((1 : ℚ) - 1) =
    [("stone", (1 : ℚ) - 1), ("bmats", 2)] from rfl]
  rw [show sget [("stone", (1 : ℚ) - 1), ("bmats", (2 : ℚ))] "bmats" = 2 from rfl]
  rw [show ((1 : ℚ) - 1) = 0 from by norm_num]
  rw [show ((2 : ℚ) + 1) = 3 from by norm_num]
  rfl

theorem updateProd_C3_1 : updateProduction worldC3.core 5 = worldC3b.core := by
  unfold updateProduction
  show { worldC3.core with buildings := [stepBuilding worldC3.core 5 refineryC3] } =
    worldC3b.core
  rw [stepC3_1]
  rfl

theorem updateProd_C3_2 : updateProduction worldC3b.core 5 = worldC3c.core := by
  unfold updateProduction
  show { worldC3b.core with buildings := [stepBuilding worldC3b.core 5 refineryC3b] } =
    worldC3c.core
  rw [stepC3_2]
  rfl

theorem updateProd_C3_3 : updateProduction worldC3c.core 5 = worldC3d.core := by
  unfold updateProduction
  show { worldC3c.core with buildings := [stepBuilding worldC3c.core 5 refineryC3c] } =
    worldC3d.core
  rw [stepC3_3]
  rfl

theorem update_C3_1 : update worldC3 5 = worldC3b := by
  show { worldC3 with core := updateProduction worldC3.core 5, trucks := ([] : List Truck) } =
    worldC3b
  rw [updateProd_C3_1]
  rfl

theorem update_C3_2 : update worldC3b 5 = worldC3c := by
  show { worldC3b with core := updateProduction worldC3b.core 5, trucks := ([] : List Truck) } =
    worldC3c
  rw [updateProd_C3_2]
  rfl

theorem update_C3_3 : update worldC3c 5 = worldC3d := by
  show { worldC3c with core := updateProduction worldC3c.core 5, trucks := ([] : List Truck) } =
    worldC3d
  rw [updateProd_C3_3]
  rfl

theorem updateList_C3 : updateList worldC3 [5, 5, 5] = worldC3d := by
  simp only [updateList]
  rw [update_C3_1, update_C3_2, update_C3_3]

theorem stepBuilding_refineryC1 : stepBuilding worldC1.core 1 refineryC1 = refineryC1 := by
  have hrate : ¬ refineryC1.production_rate_per_sec ≤ 0 := by
    show ¬ (0.2 : ℚ) ≤ 0
    norm_num
  have hstone : sget refineryC1.storage "stone" = 0 := rfl
  unfold stepBuilding
  rw [if_neg hrate]
  rw [if_neg (by decide : ¬ (is_cell_connected_to_base_by_roads worldC1.core.road_grid worldC1.core.base_cell refineryC1.cell = false))]
  rw [if_neg (by decide : ¬ ((refineryC1.type == "lumber") = true))]
  rw [if_neg (by decide : ¬ ((refineryC1.type == "quarry") = true))]
  rw [if_pos (by decide : (refineryC1.type == "refinery") = true)]
  dsimp only
  rw [hstone]
  rw [if_neg (by norm_num : ¬ ((0 : ℚ) < 0))]

theorem updateProduction_worldC1 : updateProduction worldC1.core 1 = worldC1.core := by
  unfold updateProduction
  show { worldC1.core with buildings := [stepBuilding worldC1.core 1 refineryC1] } = worldC1.core
  rw [stepBuilding_refineryC1]
  rfl

theorem update_worldC1 : update worldC1 1 = worldC1 := by
  show { worldC1 with
      core := (update_truck (updateProduction worldC1.core 1) truckC1 1).1,
      trucks := [(update_truck (updateProduction worldC1.core 1) truckC1 1).2] } = worldC1
  rw [updateProduction_worldC1]
  rfl

/-! ## Claim theorems -/

/-- C1 (code bug): a truck in `waiting_for_bmats` has an empty path, and the
only call site of `on_truck_arrival` requires a non-empty path that empties
this tick, so `update(dt)` never runs the waiting-state check: the first
conjunct shows `update_truck` ignores every empty-path truck, and the
remaining conjuncts exhibit a concrete waiting truck at a refinery holding
`waiting_target` bmats that a full `update` tick leaves completely
unchanged — the claim says this tick should withdraw the bmats and send the
truck home. (The dead branch would also crash: it reads `dt`, unbound in
`on_truck_arrival`.) -/
theorem C1_waiting_truck_never_serviced :
    (∀ (w : Game) (t : Truck) (dt : ℚ), t.path_cells = [] →
      update_truck w t dt = (w, t)) ∧
    update worldC1 1 = worldC1 ∧
    truckC1.state = "waiting_for_bmats" ∧
    truckC1.path_cells = [] ∧
    truckC1.waiting_target = some 5 ∧
    sget refineryC1.storage "bmats" = 5 := by
  refine ⟨?_, update_worldC1, rfl, rfl, rfl, rfl⟩
  intro w t dt h
  unfold update_truck
  rw [h]

/-- C1 witness: the general empty-path conjunct applied at the concrete
waiting truck. -/
theorem C1_witness :
    truckC1.path_cells = [] ∧
    update_truck worldC1.core truckC1 1 = (worldC1.core, truckC1) :=
  ⟨rfl, C1_waiting_truck_never_serviced.1 worldC1.core truckC1 1 rfl⟩

/-- C4 counterexample: the claim says bulldozing a road clears driveability
only if no facility occupies the cell. In `worldBulldozed` — reached from a
fresh world by placing a lumber camp at `(5,5)`, painting a road on the same
cell (allowed: `paint_cell` never checks buildings), and bulldozing that
road — the camp still stands, yet the cell is no longer driveable. -/
theorem C4_counterexample :
    (get_building_at_cell worldBulldozed (5, 5)).isSome = true ∧
    is_driveable worldBulldozed.road_grid (5, 5) = false ∧
    (5, 5) ∉ worldBulldozed.roads ∧
    sget worldBulldozed.resources "bmats" = 10 ∧
    sget worldCampRoad.resources "bmats" = 9 := by
  have h9 : sget worldCampRoad.resources "bmats" = 9 := by
    show sget (sset initResources "bmats" (sget initResources "bmats" - 1)) "bmats" = 9
    rw [sget_sset_self]
    norm_num [show sget initResources "bmats" = 10 from rfl]
  refine ⟨by decide, by decide, by decide, ?_, h9⟩
  show sget (sset worldCampRoad.resources "bmats"
      (sget worldCampRoad.resources "bmats" + 1)) "bmats" = 10
  rw [sget_sset_self, h9]
  norm_num

/-- C4 (amended): bulldozing a road cell removes it from the road set,
refunds exactly one bmat, leaves the building list unchanged, and clears the
cell's driveable flag unconditionally — even when a facility occupies the
cell. -/
theorem C4_bulldoze_road_cell :
    ∀ (w : Game) (c : Coord), c ∈ w.roads →
      (execute_bulldoze w [c]).roads = w.roads.erase c ∧
      sget (execute_bulldoze w [c]).resources "bmats" =
        sget w.resources "bmats" + 1 ∧
      is_driveable (execute_bulldoze w [c]).road_grid c = false ∧
      (execute_bulldoze w [c]).buildings = w.buildings := by
  intro w c hc
  have hone : execute_bulldoze w [c] = bulldozeCell w c := rfl
  rw [hone]
  unfold bulldozeCell
  rw [if_pos hc]
  refine ⟨rfl, sget_sset_self _ _ _, ?_, rfl⟩
  unfold is_driveable
  rw [gridGet_gridSet_self]
  rfl

/-- C4 witness: the amended theorem applied at the painted camp cell. -/
theorem C4_witness :
    (5, 5) ∈ worldCampRoad.roads ∧
    ((execute_bulldoze worldCampRoad [(5, 5)]).roads =
        worldCampRoad.roads.erase (5, 5) ∧
      sget (execute_bulldoze worldCampRoad [(5, 5)]).resources "bmats" =
        sget worldCampRoad.resources "bmats" + 1 ∧
      is_driveable (execute_bulldoze worldCampRoad [(5, 5)]).road_grid (5, 5) = false ∧
      (execute_bulldoze worldCampRoad [(5, 5)]).buildings =
        worldCampRoad.buildings) :=
  ⟨by decide, C4_bulldoze_road_cell worldCampRoad (5, 5) (by decide)⟩

/-- C9 counterexample: the claim says every placement operation validates
mutual exclusion, so no cell holds both a road and a building. But
`paint_cell` checks trees, stones and roads only — painting a road on the
lumber camp's cell succeeds, producing a cell that is simultaneously a road
and a building footprint. -/
theorem C9_counterexample :
    worldCampRoad = paint_cell (place_lumber_camp worldOrigin (5, 5)) (5, 5) ∧
    (5, 5) ∈ worldCampRoad.roads ∧
    (get_building_at_cell worldCampRoad (5, 5)).isSome = true := by
  refine ⟨rfl, by decide, by decide⟩

/-- C9 (amended): trees, stones and roads exclude one another in
`paint_cell`, and each facility validator excludes trees, stones, roads,
other buildings and the base neighbourhood — but road placement does not
validate against building footprints, so a road and a building can share a
cell. -/
theorem C9_placement_validators :
    ∀ (w : Game) (c : Coord),
      (c ∈ w.trees ∨ c ∈ w.stones ∨ c ∈ w.roads → paint_cell w c = w) ∧
      (can_place_lumber w c = true → c ∉ w.trees ∧ c ∉ w.stones ∧ c ∉ w.roads ∧
        get_building_at_cell w c = none ∧ is_cell_adjacent_to_base w c = false) ∧
      (can_place_quarry w c = true → c ∉ w.trees ∧ c ∉ w.stones ∧ c ∉ w.roads ∧
        get_building_at_cell w c = none ∧ is_cell_adjacent_to_base w c = false) ∧
      (can_place_refinery w c = true → c ∉ w.trees ∧ c ∉ w.stones ∧ c ∉ w.roads ∧
        get_building_at_cell w c = none ∧ is_cell_adjacent_to_base w c = false) := by
  intro w c
  refine ⟨?_, ?_, ?_, ?_⟩
  · intro h
    unfold paint_cell
    rw [if_pos h]
  all_goals
    intro h
    first
      | unfold can_place_lumber at h
      | unfold can_place_quarry at h
      | unfold can_place_refinery at h
    split_ifs at h with h1 h2 h3 h4
    push_neg at h1
    refine ⟨h1.1, h1.2, h2, ?_, Bool.eq_false_iff.mpr h4⟩
    exact building_any_false_none w.buildings c (Bool.eq_false_iff.mpr h3)

/-- C9 witness: the validator facts at a concrete placeable cell, plus the
paint no-op on an occupied cell. -/
theorem C9_witness :
    (can_place_lumber worldOrigin (5, 5) = true →
      (5, 5) ∉ worldOrigin.trees ∧ (5, 5) ∉ worldOrigin.stones ∧
      (5, 5) ∉ worldOrigin.roads ∧ get_building_at_cell worldOrigin (5, 5) = none ∧
      is_cell_adjacent_to_base worldOrigin (5, 5) = false) ∧
    can_place_lumber worldOrigin (5, 5) = true :=
  ⟨(C9_placement_validators worldOrigin (5, 5)).2.1, by decide⟩

/-- C6: a facility with positive production rate that is not road-connected
to the base is left completely unchanged by the production pass of
`update(dt)`, for any `dt`. -/
theorem C6_disconnected_facility_frozen :
    ∀ (w : Game) (dt : ℚ) (i : ℕ) (b : Building),
      w.buildings[i]? = some b →
      0 < b.production_rate_per_sec →
      is_cell_connected_to_base_by_roads w.road_grid w.base_cell b.cell = false →
      (updateProduction w dt).buildings[i]? = some b := by
  intro w dt i b hb hr hc
  unfold updateProduction
  dsimp only
  rw [List.getElem?_map, hb]
  rw [Option.map_some']
  rw [stepBuilding_of_disconnected w dt b hc]

/-- C6 witness: the lumber camp of `worldC6` (rate 0.2, empty road grid) is
untouched by a one-second production pass. -/
theorem C6_witness :
    worldC6.buildings[0]? = some ⟨"lumber", (9, 9), 5, 0.2, [("wood", 7 / 2)], none⟩ ∧
    (0 : ℚ) < 0.2 ∧
    is_cell_connected_to_base_by_roads worldC6.road_grid worldC6.base_cell (9, 9) = false ∧
    (updateProduction worldC6 1).buildings[0]? =
      some ⟨"lumber", (9, 9), 5, 0.2, [("wood", 7 / 2)], none⟩ :=
  ⟨rfl, by norm_num, by decide,
    C6_disconnected_facility_frozen worldC6 1 0 _ rfl (by norm_num) (by decide)⟩

/-- C2: `find_path_on_roads` is breadth-first search over 4-neighbourhoods
restricted to driveable cells: it returns `[start]` when `start = goal`, the
empty list when the goal is unreachable through driveable cells, and
otherwise a minimum-hop path that starts at `start`, ends at `goal`, steps
only between 4-adjacent cells, and visits only driveable cells after the
start. -/
theorem C2_find_path_bfs :
    ∀ (g : RoadGrid) (start goal : Coord),
      (start = goal → find_path_on_roads g start goal = [start]) ∧
      (¬ Reachable g start goal → find_path_on_roads g start goal = []) ∧
      (Reachable g start goal → start ≠ goal →
        (find_path_on_roads g start goal).head? = some start ∧
        (find_path_on_roads g start goal).getLast? = some goal ∧
        List.Chain' (fun a b => b ∈ neighbors4 a) (find_path_on_roads g start goal) ∧
        (∀ c ∈ (find_path_on_roads g start goal).tail, is_driveable g c = true) ∧
        ReachN g start ((find_path_on_roads g start goal).length - 1) goal ∧
        (∀ k, ReachN g start k goal →
          (find_path_on_roads g start goal).length ≤ k + 1)) :=
  fun g start goal => find_path_on_roads_spec g start goal

/-- C2 witness: on the two-cell grid `gridC2` the goal `(2,0)` is reachable
from `(1,0)`, and the theorem yields the path endpoints. -/
theorem C2_witness :
    Reachable gridC2 (1, 0) (2, 0) ∧
    ((1, 0) : Coord) ≠ (2, 0) ∧
    (find_path_on_roads gridC2 (1, 0) (2, 0)).head? = some (1, 0) ∧
    (find_path_on_roads gridC2 (1, 0) (2, 0)).getLast? = some (2, 0) := by
  have hr : Reachable gridC2 (1, 0) (2, 0) := ⟨1, by decide, (1, 0), rfl, by decide⟩
  have hne : ((1, 0) : Coord) ≠ (2, 0) := by decide
  obtain ⟨h1, h2, _⟩ := (C2_find_path_bfs gridC2 (1, 0) (2, 0)).2.2 hr hne
  exact ⟨hr, hne, h1, h2⟩

/-- C3: for a connected refinery with positive rate: while stone is held the
timer accumulates `dt`; when it reaches 5 s exactly one stone is removed and
exactly one bmat added, with the timer reset to zero (one unit per check,
whatever `dt`); with no stone the building is unchanged. Concretely, from
3 stone and no further input, three 5-second ticks (15 s) end with
`bmats = 3`, `stone = 0`. -/
theorem C3_refinery_conversion :
    (∀ (w : Game) (dt : ℚ) (b : Building),
      ¬ b.production_rate_per_sec ≤ 0 →
      is_cell_connected_to_base_by_roads w.road_grid w.base_cell b.cell = true →
      b.type = "refinery" →
      (0 < sget b.storage "stone" →
        (5 ≤ b.conversion_timer.getD 0 + dt →
          stepBuilding w dt b = { b with
            storage := sset (sset b.storage "stone" (sget b.storage "stone" - 1)) "bmats"
              (sget (sset b.storage "stone" (sget b.storage "stone" - 1)) "bmats" + 1),
            conversion_timer := some 0 }) ∧
        (¬ 5 ≤ b.conversion_timer.getD 0 + dt →
          stepBuilding w dt b =
            { b with conversion_timer := some (b.conversion_timer.getD 0 + dt) })) ∧
      (¬ 0 < sget b.storage "stone" → stepBuilding w dt b = b)) ∧
    (updateList worldC3 [5, 5, 5]).core.buildings =
      [⟨"refinery", (3, 0), 0, 0.2, [("stone", 0), ("bmats", 3)], some 0⟩] := by
  constructor
  · intro w dt b hrate hconn hty
    exact ⟨fun hstone =>
      ⟨fun ht => stepBuilding_refinery_fire w dt b hrate hconn hty hstone ht,
       fun ht => stepBuilding_refinery_wait w dt b hrate hconn hty hstone ht⟩,
      fun hstone => stepBuilding_refinery_empty w dt b hrate hconn hty hstone⟩
  · rw [updateList_C3]
    rfl

/-- C3 witness: the conversion equation applied to the concrete refinery
holding 3 stone with an unset timer and a 5-second tick. -/
theorem C3_witness :
    ¬ refineryC3.production_rate_per_sec ≤ 0 ∧
    is_cell_connected_to_base_by_roads worldC3.core.road_grid worldC3.core.base_cell
      refineryC3.cell = true ∧
    refineryC3.type = "refinery" ∧
    0 < sget refineryC3.storage "stone" ∧
    5 ≤ refineryC3.conversion_timer.getD 0 + 5 ∧
    stepBuilding worldC3.core 5 refineryC3 = { refineryC3 with
      storage := sset (sset refineryC3.storage "stone" (sget refineryC3.storage "stone" - 1))
        "bmats"
        (sget (sset refineryC3.storage "stone" (sget refineryC3.storage "stone" - 1))
          "bmats" + 1),
      conversion_timer := some 0 } := by
  have h1 : ¬ refineryC3.production_rate_per_sec ≤ 0 := by
    show ¬ (0.2 : ℚ) ≤ 0
    norm_num
  have h2 : is_cell_connected_to_base_by_roads worldC3.core.road_grid worldC3.core.base_cell
      refineryC3.cell = true := by decide
  have h4 : 0 < sget refineryC3.storage "stone" := by
    rw [show sget refineryC3.storage "stone" = 3 from rfl]
    norm_num
  have h5 : (5 : ℚ) ≤ refineryC3.conversion_timer.getD 0 + 5 := by
    rw [show refineryC3.conversion_timer.getD 0 = (0 : ℚ) from rfl]
    norm_num
  exact ⟨h1, h2, rfl, h4, h5,
    ((C3_refinery_conversion.1 worldC3.core 5 refineryC3 h1 h2 rfl).1 h4).1 h5⟩

/-- C5: cargo stays within `[0, capacity]`: the truck invariant (which also
bounds a waiting truck's recorded target) is preserved by every arrival
(loading and unloading included) and by every full `update(dt)` tick. -/
theorem C5_cargo_bounds :
    (∀ (w : Game) (t : Truck), TruckInv t → TruckInv (on_truck_arrival w t).2) ∧
    (∀ (w : World) (dt : ℚ), (∀ t ∈ w.trucks, TruckInv t) →
      ∀ t2 ∈ (update w dt).trucks, TruckInv t2) :=
  ⟨fun w t h => truckInv_on_truck_arrival w t h,
   fun w dt h => truckInv_update w dt h⟩

/-- C5 witness: the invariant holds for the concrete waiting truck and is
preserved by its arrival processing. -/
theorem C5_witness :
    TruckInv truckC1 ∧ TruckInv (on_truck_arrival worldC1.core truckC1).2 := by
  have h : TruckInv truckC1 := by
    refine ⟨?_, ?_, ?_⟩
    · show (0 : ℚ) ≤ 0
      norm_num
    · show (0 : ℚ) ≤ 20
      norm_num
    · intro _
      refine ⟨5, rfl, ?_, ?_⟩
      · show (0 : ℚ) ≤ 5
        norm_num
      · show (5 : ℚ) ≤ 20
        norm_num
  exact ⟨h, C5_cargo_bounds.1 worldC1.core truckC1 h⟩

/-- C7 counterexample: the claim says a repeat-enabled truck with all saved
trip parameters present is immediately given a new `to_source` leg after
unloading. `truckC7` satisfies every stated precondition, yet its saved
source `(50,50)` has no road within the search radius, so the code sends
the truck to `idle` with no path instead. -/
theorem C7_counterexample :
    truckC7.state = "to_dest" ∧
    truckC7.repeat_enabled = true ∧
    truckC7.saved_source = some (50, 50) ∧
    truckC7.saved_dest = some (0, 0) ∧
    truckC7.saved_resource = some "wood" ∧
    (on_truck_arrival worldC7 truckC7).2.state = "idle" ∧
    (on_truck_arrival worldC7 truckC7).2.path_cells = [] := by
  refine ⟨rfl, rfl, rfl, rfl, rfl, ?_, ?_⟩
  · decide
  · decide

/-- C7 (amended): after unloading, a repeat-enabled truck with saved source,
destination and resource present gets a new `to_source` leg only when both
the nearest-road lookup for the saved source and the path computation
succeed; if the lookup fails or the path is empty the truck goes `idle`
with cargo type and destination cleared (as it does when repeat is not
fully enabled). -/
theorem C7_repeat_requires_path :
    ∀ (w : Game) (t : Truck) (src : Coord) (r : String),
      t.repeat_enabled = true →
      t.saved_source = some src →
      t.saved_dest.isSome = true →
      t.saved_resource = some r →
      r ≠ "" →
      (find_nearest_road_to_cell w.road_grid src = none →
        repeatOrIdle w t =
          (w, { t with state := "idle", cargo_type := none, dest_cell := none })) ∧
      (∀ src_road, find_nearest_road_to_cell w.road_grid src = some src_road →
        (find_path_on_roads w.road_grid
          ((find_nearest_road_to_cell w.road_grid t.current_cell).getD t.current_cell)
          src_road).isEmpty = true →
        repeatOrIdle w t =
          (w, { t with state := "idle", cargo_type := none, dest_cell := none })) ∧
      (∀ src_road, find_nearest_road_to_cell w.road_grid src = some src_road →
        (find_path_on_roads w.road_grid
          ((find_nearest_road_to_cell w.road_grid t.current_cell).getD t.current_cell)
          src_road).isEmpty = false →
        repeatOrIdle w t =
          (w, { t with
            path_cells := find_path_on_roads w.road_grid
              ((find_nearest_road_to_cell w.road_grid t.current_cell).getD t.current_cell)
              src_road ++ [src],
            state := "to_source", cargo_type := t.saved_resource,
            dest_cell := t.saved_dest })) := by
  intro w t src r hrep hsrc hdest hres hr
  refine ⟨?_, ?_, ?_⟩
  · intro hnone
    unfold repeatOrIdle
    split
    · rw [hsrc]
      dsimp only
      rw [hnone]
    · rename_i hc
      exact absurd (by rw [hrep, hsrc, hdest, hres]; simp [hr]) hc
  · intro src_road hsome hempty
    unfold repeatOrIdle
    split
    · rw [hsrc]
      dsimp only
      rw [hsome]
      dsimp only
      rw [hempty]
      simp
    · rename_i hc
      exact absurd (by rw [hrep, hsrc, hdest, hres]; simp [hr]) hc
  · intro src_road hsome hfull
    unfold repeatOrIdle
    split
    · rw [hsrc]
      dsimp only
      rw [hsome]
      dsimp only
      rw [hfull]
      simp
    · rename_i hc
      exact absurd (by rw [hrep, hsrc, hdest, hres]; simp [hr]) hc

/-- C7 witness: with a road corridor reaching the saved source `(3,0)`, the
amended theorem yields the new `to_source` leg. -/
theorem C7_witness :
    truckC7w.repeat_enabled = true ∧
    truckC7w.saved_source = some (3, 0) ∧
    truckC7w.saved_dest.isSome = true ∧
    truckC7w.saved_resource = some "wood" ∧
    "wood" ≠ "" ∧
    find_nearest_road_to_cell worldC7w.road_grid (3, 0) = some (3, 0) ∧
    (find_path_on_roads worldC7w.road_grid
      ((find_nearest_road_to_cell worldC7w.road_grid truckC7w.current_cell).getD
        truckC7w.current_cell) (3, 0)).isEmpty = false ∧
    repeatOrIdle worldC7w truckC7w =
      (worldC7w, { truckC7w with
        path_cells := find_path_on_roads worldC7w.road_grid
          ((find_nearest_road_to_cell worldC7w.road_grid truckC7w.current_cell).getD
            truckC7w.current_cell) (3, 0) ++ [(3, 0)],
        state := "to_source", cargo_type := truckC7w.saved_resource,
        dest_cell := truckC7w.saved_dest }) := by
  have h6 : find_nearest_road_to_cell worldC7w.road_grid (3, 0) = some (3, 0) := by decide
  have h7 : (find_path_on_roads worldC7w.road_grid
      ((find_nearest_road_to_cell worldC7w.road_grid truckC7w.current_cell).getD
        truckC7w.current_cell) (3, 0)).isEmpty = false := by decide
  exact ⟨rfl, rfl, rfl, rfl, by decide, h6, h7,
    (C7_repeat_requires_path worldC7w truckC7w (3, 0) "wood" rfl rfl rfl rfl
      (by decide)).2.2 (3, 0) h6 h7⟩

/-- C8: every entry of the base resource pool is an integer: the initial
pool is integral, the production pass never touches the pool, and a truck
step (which performs every load from and delivery to the pool) preserves
integrality, given the reachable-state facts that no building sits on the
base cell and the truck capacity is the spawned 20. -/
theorem C8_resource_pool_integral :
    ResIntegral initResources ∧
    (∀ (w : Game) (dt : ℚ), (updateProduction w dt).resources = w.resources) ∧
    (∀ (w : Game) (t : Truck) (dt : ℚ), NoBuildingAtBase w → ResIntegral w.resources →
      t.cargo_capacity = 20 → ResIntegral (update_truck w t dt).1.resources) :=
  ⟨initResources_integral,
   fun w dt => resources_updateProduction w dt,
   fun w t dt hb hi hc => resIntegral_update_truck w t dt hb hi hc⟩

/-- C8 witness: the preservation applied to the concrete waiting-truck
world. -/
theorem C8_witness :
    NoBuildingAtBase worldC1.core ∧ truckC1.cargo_capacity = 20 ∧
    ResIntegral worldC1.core.resources ∧
    ResIntegral (update_truck worldC1.core truckC1 1).1.resources := by
  have hb : NoBuildingAtBase worldC1.core := by
    show get_building_at_cell worldC1.core worldC1.core.base_cell = none
    decide
  have hi : ResIntegral worldC1.core.resources := initResources_integral
  exact ⟨hb, rfl, hi, C8_resource_pool_integral.2.2 worldC1.core truckC1 1 hb hi rfl⟩

/-- C10: every entry of the base resource pool stays nonnegative: the
initial pool is nonnegative, `paint_cell` only charges when a bmat is
available, `build_new_truck` only charges an affordable cost, and a truck
step (covering every base-pool load, which clamps at zero) preserves
nonnegativity. -/
theorem C10_resource_pool_nonneg :
    ResNonneg initResources ∧
    (∀ (w : Game) (c : Coord), ResIntegral w.resources → ResNonneg w.resources →
      ResNonneg (paint_cell w c).resources) ∧
    (∀ (w : World), ResNonneg w.core.resources →
      ResNonneg (build_new_truck w).core.resources) ∧
    (∀ (w : Game) (t : Truck) (dt : ℚ), NoBuildingAtBase w → ResNonneg w.resources →
      0 ≤ t.cargo_amount → ResNonneg (update_truck w t dt).1.resources) :=
  ⟨initResources_nonneg,
   fun w c hi hn => resNonneg_paint_cell w c hi hn,
   fun w hn => resNonneg_build_new_truck w hn,
   fun w t dt hb hn h0 => resNonneg_update_truck w t dt hb hn h0⟩

/-- C10 witness: road painting on the fresh world and a truck step on the
waiting-truck world both keep the pool nonnegative. -/
theorem C10_witness :
    ResIntegral worldOrigin.resources ∧ ResNonneg worldOrigin.resources ∧
    ResNonneg (paint_cell worldOrigin (1, 1)).resources ∧
    NoBuildingAtBase worldC1.core ∧ (0 : ℚ) ≤ truckC1.cargo_amount ∧
    ResNonneg (update_truck worldC1.core truckC1 1).1.resources := by
  have hi : ResIntegral worldOrigin.resources := initResources_integral
  have hn : ResNonneg worldOrigin.resources := initResources_nonneg
  have hb : NoBuildingAtBase worldC1.core := by
    show get_building_at_cell worldC1.core worldC1.core.base_cell = none
    decide
  have h0 : (0 : ℚ) ≤ truckC1.cargo_amount := by
    show (0 : ℚ) ≤ 0
    norm_num
  exact ⟨hi, hn, C10_resource_pool_nonneg.2.1 worldOrigin (1, 1) hi hn, hb, h0,
    C10_resource_pool_nonneg.2.2.2 worldC1.core truckC1 1 hb initResources_nonneg h0⟩

end LogisticsGame
